import Mathlib

/-
Verification of the PricePilot ingestion and reconciliation pipeline.

This file gives a shallow embedding, in Lean 4, of the core of the
PricePilot repository:

  * backend/app/price_service.py   (PriceService: price ledger with history)
  * backend/run_scrapers.py        (ProductMatcher and ScraperPipeline)
  * backend/app/pricing_engine.py  (PricingEngine: trend analytics)
  * scrapers/base.py               (BaseScraper.normalize_price)

Modelling conventions:
  * Python Decimal values and floats are modelled as exact rationals (ℚ).
    Decimal arithmetic on the inputs that appear here is exact, and the
    float conversions in the source do not change which branch is taken
    in any theorem below.
  * datetime values are modelled as rational timestamps, in seconds.
  * The SQLAlchemy session is modelled as an explicit state: lists of
    Product, Price and PriceHistory rows (plus Category rows).  A query
    filtering on a pair of keys followed by .first() is List.find?; an
    in-place mutation of the found row is replacement of the first
    matching row.
  * uuid4() primary keys are passed in as explicit arguments.
  * The fuzzywuzzy similarity functions (fuzz.ratio,
    fuzz.token_sort_ratio, fuzz.partial_ratio) are an external library,
    outside this repository; they are parameters of the embedding,
    exactly like the matcher treats them: opaque functions from two
    strings to a score.
-/

namespace PricePilot

/-- Timestamps, in seconds (datetime.utcnow() instants). -/
abbrev Time := ℚ

/-- Content of a flat JSON object with string keys and string values. -/
abbrev VarEntry := List (String × String)

/-- JSON value stored in a variation_details column: either an object
(the price service stores dicts, default {}) or an array of objects
(the scraper pipeline stores ScrapedProduct.variations, a list). -/
inductive VarDetails where
  | dict (d : VarEntry)
  | arr (l : List VarEntry)
  deriving Repr, DecidableEq

/-- ScrapedProduct from scrapers/base.py: the normalized observation
produced by the vendor scrapers. -/
structure ScrapedProduct where
  name : String
  price : ℚ
  original_price : Option ℚ
  stock_status : String
  product_url : String
  image_url : Option String
  variations : List VarEntry
  deriving Repr, DecidableEq

/-- The scraped_data dict consumed by PriceService.update_or_create_price.
A field that is none models an absent key (dict.get returns None). -/
structure ScrapedData where
  price : ℚ
  original_price : Option ℚ := none
  stock_status : Option String := none
  product_url : Option String := none
  variations : Option VarDetails := none
  deriving Repr, DecidableEq

/-- Product row (backend/app/models.py). -/
structure Product where
  id : String
  name : String
  brand : String
  category_id : Option String
  image_url : Option String
  popularity_score : ℤ
  deriving Repr, DecidableEq

/-- Category row (backend/app/models.py). -/
structure Category where
  id : String
  name : String
  deriving Repr, DecidableEq

/-- Price row (backend/app/models.py): the current per (product, vendor)
price record. -/
structure Price where
  id : String
  product_id : String
  vendor_id : String
  price : ℚ
  original_price : Option ℚ
  discount_percentage : Option ℚ
  stock_status : String
  product_url : String
  variation_details : VarDetails
  last_updated_at : Time
  deriving Repr, DecidableEq

/-- PriceHistory row (backend/app/models.py): archival snapshot of a
Price at the moment it was superseded. -/
structure PriceHistory where
  price_id : String
  product_id : String
  vendor_id : String
  price : ℚ
  original_price : Option ℚ
  discount_percentage : Option ℚ
  stock_status : String
  product_url : String
  variation_details : VarDetails
  recorded_at : Time
  deriving Repr, DecidableEq

/-- ScraperRun row (backend/app/models.py). -/
structure ScraperRun where
  id : String
  vendor_id : String
  status : String
  products_scraped : ℕ
  errors_count : ℕ
  duration_seconds : Option ℤ
  error_details : Option String
  started_at : Time
  completed_at : Option Time
  deriving Repr, DecidableEq

/-- Database state threaded through the embedded operations. -/
structure St where
  products : List Product
  categories : List Category
  prices : List Price
  history : List PriceHistory
  deriving Repr, DecidableEq

/-- Python truthiness of an optional numeric value: present and nonzero. -/
def truthyOpt (o : Option ℚ) : Bool :=
  match o with
  | some v => v != 0
  | none => false

/-- Python round(x, 2): round half to even at two decimal places
(round on a float or Decimal uses bankers rounding). -/
def pyRound2 (q : ℚ) : ℚ :=
  let y := q * 100
  let f := ⌊y⌋
  let r : ℤ :=
    if y - f < 1/2 then f
    else if y - f > 1/2 then f + 1
    else if f % 2 = 0 then f else f + 1
  (r : ℚ) / 100

/-- Python int() applied to a nonnegative-or-negative rational: truncation
toward zero. -/
def pyInt (q : ℚ) : ℤ :=
  if 0 ≤ q then ⌊q⌋ else -⌊-q⌋

/-- Predicate used by the price lookups: the row for this
(product_id, vendor_id) pair. -/
def priceKey (product_id vendor_id : String) (p : Price) : Bool :=
  p.product_id == product_id && p.vendor_id == vendor_id

/-- Replacement of the first Price row matching (product_id, vendor_id),
modelling the in-place mutation of the row returned by .first(). -/
def replaceFirstPrice (product_id vendor_id : String) (u : Price) :
    List Price → List Price
  | [] => []
  | p :: ps =>
    if priceKey product_id vendor_id p then u :: ps
    else p :: replaceFirstPrice product_id vendor_id u ps

/-- PriceService._archive_price_to_history (price_service.py lines
97-114): builds the PriceHistory row copying the current Price values,
with recorded_at taken from the Price's last_updated_at. -/
def archive_price_to_history (price_record : Price) : PriceHistory :=
  { price_id := price_record.id
    product_id := price_record.product_id
    vendor_id := price_record.vendor_id
    price := price_record.price
    original_price := price_record.original_price
    discount_percentage := price_record.discount_percentage
    stock_status := price_record.stock_status
    product_url := price_record.product_url
    variation_details := price_record.variation_details
    recorded_at := price_record.last_updated_at }

/-- Discount percentage as computed by update_or_create_price (lines
44-49): present only when the (truthy) original price strictly exceeds
the new price; the value is not rounded. -/
def serviceDiscount (new_original_price : Option ℚ) (new_price : ℚ) : Option ℚ :=
  match new_original_price with
  | some op => if new_price < op then some (((op - new_price) / op) * 100) else none
  | none => none

/-- PriceService.update_or_create_price (price_service.py lines 20-95).
Returns the new state together with the updated or created Price row.
now is datetime.utcnow(); new_id is the uuid the database would give a
newly inserted row. -/
def update_or_create_price (st : St) (product_id vendor_id : String)
    (scraped_data : ScrapedData) (now : Time) (new_id : String) : St × Price :=
  let new_price := scraped_data.price
  let new_original_price : Option ℚ :=
    if truthyOpt scraped_data.original_price then scraped_data.original_price else none
  let discount_percentage := serviceDiscount new_original_price new_price
  match st.prices.find? (priceKey product_id vendor_id) with
  | some existing_price =>
    let price_changed := |existing_price.price - new_price| > 1/100
    let history' :=
      if price_changed then st.history ++ [archive_price_to_history existing_price]
      else st.history
    let updated : Price :=
      { existing_price with
        price := new_price
        original_price := new_original_price
        discount_percentage := discount_percentage
        stock_status := scraped_data.stock_status.getD "in_stock"
        product_url := scraped_data.product_url.getD existing_price.product_url
        variation_details := scraped_data.variations.getD (.dict [])
        last_updated_at := now }
    ({ st with
        prices := replaceFirstPrice product_id vendor_id updated st.prices
        history := history' },
     updated)
  | none =>
    let new_price_record : Price :=
      { id := new_id
        product_id := product_id
        vendor_id := vendor_id
        price := new_price
        original_price := new_original_price
        discount_percentage := discount_percentage
        stock_status := scraped_data.stock_status.getD "in_stock"
        product_url := scraped_data.product_url.getD ""
        variation_details := scraped_data.variations.getD (.dict [])
        last_updated_at := now }
    ({ st with prices := st.prices ++ [new_price_record] }, new_price_record)

/-- Freshness bucket of a Price, from the age in hours, exactly as in
PriceService.get_data_freshness_info (price_service.py lines 283-294):
start from fresh, stale when more than 24 hours old, aging when more
than 12. -/
def freshness_status_of_hours (hours_old : ℚ) : String :=
  if hours_old > 24 then "stale"
  else if hours_old > 12 then "aging"
  else "fresh"

/-- Age in hours of a Price at instant now, and its freshness bucket
(price_service.py lines 286-294). -/
def freshness_status (now : Time) (p : Price) : String :=
  freshness_status_of_hours ((now - p.last_updated_at) / 3600)

/-! ## ProductMatcher (backend/run_scrapers.py lines 38-184) -/

/-- Python str.lower() (ASCII range), written over the character list
so that it evaluates by kernel reduction. -/
def pyLower (s : String) : String := String.mk (s.toList.map Char.toLower)

/-- Whitespace characters matched by the regex class \s and stripped by
str.strip / split by str.split (ASCII range). -/
def isWs (c : Char) : Bool :=
  c = ' ' || c = '\t' || c = '\n' || c = '\r' || c = '\x0b' || c = '\x0c'

/-- Python str.strip(): drop leading and trailing whitespace. -/
def stripWs (l : List Char) : List Char :=
  ((l.dropWhile isWs).reverse.dropWhile isWs).reverse

/-- Substring test: Python's `needle in haystack` on strings. -/
def containsSub (needle : List Char) : List Char → Bool
  | [] => needle.isEmpty
  | c :: t => needle.isPrefixOf (c :: t) || containsSub needle t

/-- Python str.split() with no argument: split on whitespace runs,
producing no empty words. -/
def pySplitGo : List Char → List Char → List String
  | [], acc => if acc.isEmpty then [] else [String.mk acc.reverse]
  | c :: t, acc =>
    if isWs c then
      if acc.isEmpty then pySplitGo t [] else String.mk acc.reverse :: pySplitGo t []
    else pySplitGo t (c :: acc)

/-- Python str.split() with no argument. -/
def pySplit (s : String) : List String := pySplitGo s.toList []

/-- First literal of the alternation that is a prefix of the input
(regex alternation of plain words tries the alternatives in order). -/
def firstLit (lits : List (List Char)) (l : List Char) : Option (List Char) :=
  lits.find? (fun w => w.isPrefixOf l)

/-- Matcher, at one position, for the chip pattern
r'(m[1-4](?:\s+(?:pro|max|ultra))?)': an m followed by a digit 1-4,
optionally followed by whitespace and one of pro/max/ultra.  The \s+ is
consumed maximally; fewer whitespace characters can never make the
literal match, so no further backtracking occurs.  Returns the matched
characters and the rest of the input. -/
def matchChip : List Char → Option (List Char × List Char)
  | 'm' :: d :: rest =>
    if d == '1' || d == '2' || d == '3' || d == '4' then
      let ws := rest.takeWhile isWs
      let rest2 := rest.dropWhile isWs
      if ws.isEmpty then some (['m', d], rest)
      else
        match firstLit [['p', 'r', 'o'], ['m', 'a', 'x'], ['u', 'l', 't', 'r', 'a']] rest2 with
        | some w => some (('m' :: d :: ws) ++ w, rest2.drop w.length)
        | none => some (['m', d], rest)
    else none
  | _ => none

/-- Matcher, at one position, for the screen-size pattern
r'(\d+(?:\.\d+)?["\-]?(?:inch)?)': a maximal digit run, then an optional
fraction, an optional quote or hyphen, and an optional literal inch.
All parts after the digit run are optional, so the greedy match never
backtracks. -/
def matchNum (l : List Char) : Option (List Char × List Char) :=
  let ds := l.takeWhile Char.isDigit
  if ds.isEmpty then none
  else
    let r1 := l.drop ds.length
    let fracStep : List Char × List Char :=
      match r1 with
      | '.' :: r =>
        let fs := r.takeWhile Char.isDigit
        if fs.isEmpty then ([], r1) else ('.' :: fs, r.drop fs.length)
      | _ => ([], r1)
    let frac := fracStep.1
    let r2 := fracStep.2
    let punctStep : List Char × List Char :=
      match r2 with
      | '"' :: r => (['"'], r)
      | '-' :: r => (['-'], r)
      | _ => ([], r2)
    let punct := punctStep.1
    let r3 := punctStep.2
    let inchStep : List Char × List Char :=
      if ['i', 'n', 'c', 'h'].isPrefixOf r3 then (['i', 'n', 'c', 'h'], r3.drop 4)
      else ([], r3)
    some (ds ++ frac ++ punct ++ inchStep.1, inchStep.2)

/-- Matcher, at one position, for the variant pattern
r'(pro|air|max|mini|plus)': the first alternative that is a prefix. -/
def matchVariant (l : List Char) : Option (List Char × List Char) :=
  match firstLit
      [['p', 'r', 'o'], ['a', 'i', 'r'], ['m', 'a', 'x'],
       ['m', 'i', 'n', 'i'], ['p', 'l', 'u', 's']] l with
  | some w => some (w, l.drop w.length)
  | none => none

/-- Matcher, at one position, for the storage pattern r'(\d+gb|\d+tb)':
a maximal digit run followed by gb or tb (backtracking the digit run
leaves a digit in front of the literal, so only the maximal run can
match). -/
def matchStorage (l : List Char) : Option (List Char × List Char) :=
  let ds := l.takeWhile Char.isDigit
  if ds.isEmpty then none
  else
    let r := l.drop ds.length
    if ['g', 'b'].isPrefixOf r then some (ds ++ ['g', 'b'], r.drop 2)
    else if ['t', 'b'].isPrefixOf r then some (ds ++ ['t', 'b'], r.drop 2)
    else none

/-- re.findall driver: scan left to right, non-overlapping; on a match
continue after it, otherwise advance one character.  Fuel is the length
of the input; every matcher above consumes at least one character, so
the fuel never runs out. -/
def findallAux (m : List Char → Option (List Char × List Char)) :
    ℕ → List Char → List (List Char)
  | 0, _ => []
  | _ + 1, [] => []
  | fuel + 1, c :: t =>
    match m (c :: t) with
    | some (mat, rest) => mat :: findallAux m fuel rest
    | none => findallAux m fuel t

/-- re.findall of a single-group pattern over the input. -/
def findall (m : List Char → Option (List Char × List Char)) (l : List Char) :
    List (List Char) :=
  findallAux m l.length l

/-- Brand vocabulary of _extract_product_keywords (run_scrapers.py line 102). -/
def brandVocab : List String :=
  ["apple", "samsung", "sony", "bose", "dell", "hp", "lenovo", "microsoft", "jbl"]

/-- Product-type vocabulary of _extract_product_keywords (line 108). -/
def productTypeVocab : List String :=
  ["macbook", "iphone", "ipad", "airpods", "surface", "xps", "thinkpad",
   "headphones", "earbuds", "speaker"]

/-- ProductMatcher._extract_product_keywords (run_scrapers.py lines
91-125): brands and product types occurring as substrings of the
lowercased name, then the matches of the four model/size regexes, each
stripped, dropping empties. -/
def extract_product_keywords (product_name : String) : List String :=
  let name := (pyLower product_name).toList
  let keywords :=
    brandVocab.filter (fun b => containsSub b.toList name) ++
    productTypeVocab.filter (fun t => containsSub t.toList name) ++
    ((findall matchChip name ++ findall matchNum name ++
      findall matchVariant name ++ findall matchStorage name).map
      (fun l => String.mk l))
  (keywords.map (fun k => String.mk (stripWs k.toList))).filter (fun k => k ≠ "")

/-- Keyword-overlap score (run_scrapers.py lines 72-73): number of
distinct shared keywords over the larger keyword-list length, times
100. -/
def keyword_overlap_score (a b : List String) : ℚ :=
  let keyword_matches := (a.dedup.filter (fun k => b.contains k)).length
  ((keyword_matches : ℚ) / (max a.length b.length : ℕ)) * 100

/-- Composite similarity score of one candidate (run_scrapers.py lines
56-77): the maximum of fuzz.ratio, fuzz.token_sort_ratio and the
substring measure on the lowercased names, together with the
keyword-overlap score when both keyword lists are nonempty.  The three
fuzzywuzzy measures are external-library functions, passed in as fr,
fts and fpr. -/
def composite_score (fr fts fpr : String → String → ℚ)
    (obs_name prod_name : String) : ℚ :=
  let s1 := fr (pyLower obs_name) (pyLower prod_name)
  let s2 := fts (pyLower obs_name) (pyLower prod_name)
  let s3 := fpr (pyLower obs_name) (pyLower prod_name)
  let ka := extract_product_keywords obs_name
  let kb := extract_product_keywords prod_name
  if ka ≠ [] ∧ kb ≠ [] then
    max (max (max s1 s2) s3) (keyword_overlap_score ka kb)
  else
    max (max s1 s2) s3

/-- Result of the matcher: an existing catalog product, or a newly
created one. -/
inductive MatchResult where
  | matched (p : Product)
  | created (p : Product)
  deriving Repr, DecidableEq

/-- Product carried by a match result. -/
def MatchResult.product : MatchResult → Product
  | .matched p => p
  | .created p => p

/-- Category keyword table of _determine_category (run_scrapers.py
lines 155-159), in dict insertion order. -/
def category_keywords : List (String × List String) :=
  [("laptops", ["laptop", "macbook", "notebook", "ultrabook", "chromebook"]),
   ("headphones", ["headphone", "earphone", "earbud", "airpods", "headset"]),
   ("speakers", ["speaker", "soundbar", "bluetooth speaker", "wireless speaker"])]

/-- Loop of _determine_category: first category whose keyword set hits
the lowercased name and which exists in the database; on fall-through,
the laptops category (which may itself be absent). -/
def determine_category_go (nl : List Char) (categories : List Category) :
    List (String × List String) → Option Category
  | [] => categories.find? (fun c => c.name == "laptops")
  | (cname, kws) :: rest =>
    if kws.any (fun kw => containsSub kw.toList nl) then
      match categories.find? (fun c => c.name == cname) with
      | some c => some c
      | none => determine_category_go nl categories rest
    else determine_category_go nl categories rest

/-- ProductMatcher._determine_category (run_scrapers.py lines 150-168). -/
def determine_category (product_name : String) (categories : List Category) :
    Option Category :=
  determine_category_go (pyLower product_name).toList categories category_keywords

/-- Brand vocabulary of _extract_brand (run_scrapers.py lines 172-175). -/
def commonBrands : List String :=
  ["Apple", "Samsung", "Sony", "Bose", "Dell", "HP", "Lenovo",
   "ASUS", "Acer", "Microsoft", "Google", "Amazon", "JBL", "Beats"]

/-- ProductMatcher._extract_brand (run_scrapers.py lines 170-184): the
first word of the name equal (case-insensitively) to a known brand, in
the brand's canonical casing; otherwise the first word; Unknown for an
empty name. -/
def extract_brand (product_name : String) : String :=
  let name_words := pySplit product_name
  match name_words.findSome?
      (fun w => commonBrands.find? (fun b => pyLower w == pyLower b)) with
  | some b => b
  | none =>
    match name_words with
    | [] => "Unknown"
    | w :: _ => w

/-- ProductMatcher._create_new_product (run_scrapers.py lines 127-148):
the new Product row, with popularity_score 1. -/
def create_new_product (obs : ScrapedProduct) (st : St)
    (new_product_id : String) : Product :=
  { id := new_product_id
    name := obs.name
    brand := extract_brand obs.name
    category_id := (determine_category obs.name st.categories).map (fun c => c.id)
    image_url := obs.image_url
    popularity_score := 1 }

/-- Loop body of find_matching_product (run_scrapers.py lines 56-81):
keep the candidate when its composite score strictly beats the best so
far and reaches the similarity threshold. -/
def match_step (fr fts fpr : String → String → ℚ) (thr : ℚ) (obs_name : String)
    (acc : Option Product × ℚ) (product : Product) : Option Product × ℚ :=
  let score := composite_score fr fts fpr obs_name product.name
  if score > acc.2 ∧ score ≥ thr then (some product, score) else acc

/-- ProductMatcher.find_matching_product (run_scrapers.py lines 44-89):
scan every product with the composite score, starting from best_score
0; return the retained best match, or create a new product when none
reached the threshold. -/
def find_matching_product (fr fts fpr : String → String → ℚ) (thr : ℚ)
    (obs : ScrapedProduct) (st : St) (new_product_id : String) :
    MatchResult × St :=
  match (st.products.foldl (match_step fr fts fpr thr obs.name) (none, 0)).1 with
  | some best_match => (.matched best_match, st)
  | none =>
    let np := create_new_product obs st new_product_id
    (.created np, { st with products := st.products ++ [np] })

/-! ## ScraperPipeline (backend/run_scrapers.py lines 187-418) -/

/-- Increment of popularity_score on the product row with the given id
(run_scrapers.py line 342, product.popularity_score += 1). -/
def bump_first_product (id : String) : List Product → List Product
  | [] => []
  | p :: ps =>
    if p.id == id then { p with popularity_score := p.popularity_score + 1 } :: ps
    else p :: bump_first_product id ps

/-- Discount as computed by _store_product_data (run_scrapers.py lines
318-320 and 323-326): rounded to 2 decimals, computed whenever both
original_price and price are truthy, whatever their order. -/
def pipelineDiscount (obs : ScrapedProduct) : Option ℚ :=
  match obs.original_price with
  | some op =>
    if op ≠ 0 ∧ obs.price ≠ 0 then some (pyRound2 (((op - obs.price) / op) * 100))
    else none
  | none => none

/-- ScraperPipeline._store_product_data (run_scrapers.py lines 299-344):
resolve the product through the matcher, update or create the Price row
for (product, vendor), and increment the product's popularity.  On an
update the discount is reassigned only when both prices are truthy, and
variation_details is not reassigned at all; on an insert the database
fills last_updated_at with the current instant. -/
def store_product_data (fr fts fpr : String → String → ℚ) (thr : ℚ)
    (obs : ScrapedProduct) (vendor_id : String) (st : St) (now : Time)
    (new_product_id new_price_id : String) : MatchResult × St :=
  let m := find_matching_product fr fts fpr thr obs st new_product_id
  let product := m.1.product
  let st1 := m.2
  match st1.prices.find? (priceKey product.id vendor_id) with
  | some existing_price =>
    let base : Price :=
      { existing_price with
        price := obs.price
        original_price := obs.original_price
        stock_status := obs.stock_status
        product_url := obs.product_url
        last_updated_at := now }
    let updated : Price :=
      match pipelineDiscount obs with
      | some dq => { base with discount_percentage := some dq }
      | none => base
    (m.1,
     { st1 with
        prices := replaceFirstPrice product.id vendor_id updated st1.prices
        products := bump_first_product product.id st1.products })
  | none =>
    let new_price_row : Price :=
      { id := new_price_id
        product_id := product.id
        vendor_id := vendor_id
        price := obs.price
        original_price := obs.original_price
        discount_percentage := pipelineDiscount obs
        stock_status := obs.stock_status
        product_url := obs.product_url
        variation_details := .arr obs.variations
        last_updated_at := now }
    (m.1,
     { st1 with
        prices := st1.prices ++ [new_price_row]
        products := bump_first_product product.id st1.products })

/-- Outcome of storing one scraped product: Except models the
per-product try/except of _run_vendor_scraper (lines 283-288). -/
abbrev ItemOutcome := Except String Unit

/-- Outcome of one search query: either the exception thrown by
scraper.search_product, or the store outcomes of the returned products
(per-query try/except, run_scrapers.py lines 277-292). -/
abbrev QueryOutcome := Except String (List ItemOutcome)

/-- ScraperPipeline._run_vendor_scraper (run_scrapers.py lines 272-297):
accumulate (products_scraped, errors) over the queries; a query
exception counts one error, each failed store counts one error, each
successful store counts one scraped product.  Both exception kinds are
caught inside the loops, so this function is total. -/
def run_vendor_scraper (queries : List QueryOutcome) : ℕ × ℕ :=
  queries.foldl
    (fun acc q =>
      match q with
      | .error _ => (acc.1, acc.2 + 1)
      | .ok items =>
        items.foldl
          (fun acc2 item =>
            match item with
            | .ok _ => (acc2.1 + 1, acc2.2)
            | .error _ => (acc2.1, acc2.2 + 1))
          acc)
    (0, 0)

/-- Errors contributed by one query: 1 for a query-level exception,
otherwise one per failed store. -/
def errorsOfQuery : QueryOutcome → ℕ
  | .error _ => 1
  | .ok items => items.countP (fun i => match i with | .error _ => true | .ok _ => false)

/-- Successfully stored products contributed by one query. -/
def okOfQuery : QueryOutcome → ℕ
  | .error _ => 0
  | .ok items => items.countP (fun i => match i with | .ok _ => true | .error _ => false)

/-- Total errors over a vendor run. -/
def total_errors (queries : List QueryOutcome) : ℕ :=
  (queries.map errorsOfQuery).sum

/-- Total successfully stored products over a vendor run. -/
def total_scraped (queries : List QueryOutcome) : ℕ :=
  (queries.map okOfQuery).sum

/-- ScraperPipeline._complete_scraper_run (run_scrapers.py lines
395-406). -/
def complete_scraper_run (run : ScraperRun) (results : ℕ × ℕ) (now : Time) :
    ScraperRun :=
  { run with
    status := "completed"
    products_scraped := results.1
    errors_count := results.2
    completed_at := some now
    duration_seconds := some (pyInt (now - run.started_at)) }

/-- ScraperPipeline._fail_scraper_run (run_scrapers.py lines 408-418). -/
def fail_scraper_run (run : ScraperRun) (error_message : String) (now : Time) :
    ScraperRun :=
  { run with
    status := "failed"
    completed_at := some now
    error_details := some error_message
    duration_seconds := some (pyInt (now - run.started_at)) }

/-- One vendor's slice of run_all_scrapers (run_scrapers.py lines
249-261): when no exception escapes the per-query/per-product
boundaries the run record is completed with the accumulated counts;
when one does escape, the run record is failed. -/
def vendor_run (run : ScraperRun) (outcome : Except String (List QueryOutcome))
    (now : Time) : ScraperRun :=
  match outcome with
  | .ok queries => complete_scraper_run run (run_vendor_scraper queries) now
  | .error e => fail_scraper_run run e now

/-! ## PricingEngine (backend/app/pricing_engine.py) -/

/-- Entry of the price_history list built by
PricingEngine.get_price_history (pricing_engine.py lines 214-223). -/
structure HistEntry where
  vendor_id : String
  price : ℚ
  original_price : Option ℚ
  timestamp : Time
  stock_status : String
  deriving Repr, DecidableEq

/-- Insertion into a list sorted by strictly descending key (stable for
distinct keys). -/
def insertDescBy (key : HistEntry → Time) (x : HistEntry) :
    List HistEntry → List HistEntry
  | [] => [x]
  | y :: ys =>
    if key x > key y then x :: y :: ys else y :: insertDescBy key x ys

/-- Sort by descending key: the order_by(Price.last_updated_at.desc())
of get_price_history. -/
def sortDescBy (key : HistEntry → Time) : List HistEntry → List HistEntry
  | [] => []
  | x :: xs => insertDescBy key x (sortDescBy key xs)

/-- Insertion into a list sorted by ascending key (stable for distinct
keys). -/
def insertAscBy (key : HistEntry → Time) (x : HistEntry) :
    List HistEntry → List HistEntry
  | [] => [x]
  | y :: ys =>
    if key x < key y then x :: y :: ys else y :: insertAscBy key x ys

/-- Sort by ascending key: vendor_history.sort(key=timestamp) inside
calculate_price_trends. -/
def sortAscBy (key : HistEntry → Time) : List HistEntry → List HistEntry
  | [] => []
  | x :: xs => insertAscBy key x (sortAscBy key xs)

/-- PricingEngine.get_price_history (pricing_engine.py lines 203-223):
the Price rows of the product not older than the cutoff, ordered by
last_updated_at DESCENDING, i.e. newest first. -/
def get_price_history (prices : List Price) (product_id : String) (now : Time)
    (days : ℕ) : List HistEntry :=
  let cutoff := now - (days : ℚ) * 86400
  let selected := prices.filter
    (fun p => p.product_id == product_id && decide (cutoff ≤ p.last_updated_at))
  let rows := selected.map (fun p =>
    { vendor_id := p.vendor_id
      price := p.price
      original_price := p.original_price
      timestamp := p.last_updated_at
      stock_status := p.stock_status : HistEntry })
  sortDescBy (fun h => h.timestamp) rows

/-- statistics.mean of a list of numbers. -/
def mean (l : List ℚ) : ℚ := l.sum / (l.length : ℚ)

/-- Per-vendor trend entry of calculate_price_trends (pricing_engine.py
lines 112-134). -/
structure VendorTrend where
  trend : String
  price_change : ℚ
  percentage_change : ℚ
  current_price : ℚ
  previous_price : ℚ
  data_points : ℕ
  deriving Repr, DecidableEq

/-- Overall market trend of calculate_price_trends (lines 136-152). -/
inductive OverallTrend where
  | data (direction : String) (percentage_change recent_average historical_average : ℚ)
  | insufficient
  deriving Repr, DecidableEq

/-- Result of calculate_price_trends. -/
inductive TrendResult where
  | insufficient
  | trends (vendor_trends : List (String × VendorTrend)) (overall : OverallTrend)
  deriving Repr, DecidableEq

/-- Placeholder entry; only read under branch guards that ensure the
underlying list is nonempty. -/
def defaultHist : HistEntry :=
  { vendor_id := "", price := 0, original_price := none, timestamp := 0,
    stock_status := "" }

/-- PricingEngine.calculate_price_trends (pricing_engine.py lines
100-158).  The iteration order over set(vendor_id) is modelled as
first-occurrence order; only the set of produced entries matters.  Note
that the per-vendor trend compares the two endpoint prices after an
ascending sort, while the overall market trend averages
price_history[:10] against price_history[-10:] of the list as given
(which get_price_history orders newest first). -/
def calculate_price_trends (price_history : List HistEntry) : TrendResult :=
  if price_history.length < 2 then .insufficient
  else
    let vendor_ids := (price_history.map (fun h => h.vendor_id)).dedup
    let vendor_trends := vendor_ids.filterMap (fun vid =>
      let vendor_history := price_history.filter (fun h => h.vendor_id == vid)
      if 2 ≤ vendor_history.length then
        let sorted := sortAscBy (fun h => h.timestamp) vendor_history
        let recent_price := (sorted.getLastD defaultHist).price
        let older_price := (sorted.headD defaultHist).price
        let price_change := recent_price - older_price
        let percentage_change := (price_change / older_price) * 100
        let trend :=
          if |percentage_change| < 2 then "stable"
          else if percentage_change > 0 then "increasing"
          else "decreasing"
        some (vid,
          { trend := trend
            price_change := price_change
            percentage_change := pyRound2 percentage_change
            current_price := recent_price
            previous_price := older_price
            data_points := vendor_history.length : VendorTrend })
      else none)
    let all_recent_prices :=
      (price_history.drop (price_history.length - 10)).map (fun h => h.price)
    let all_older_prices := (price_history.take 10).map (fun h => h.price)
    let overall :=
      if all_recent_prices ≠ [] ∧ all_older_prices ≠ [] then
        let recent_avg := mean all_recent_prices
        let older_avg := mean all_older_prices
        let overall_change := ((recent_avg - older_avg) / older_avg) * 100
        OverallTrend.data
          (if overall_change > 2 then "increasing"
           else if overall_change < -2 then "decreasing"
           else "stable")
          (pyRound2 overall_change) (pyRound2 recent_avg) (pyRound2 older_avg)
      else OverallTrend.insufficient
    .trends vendor_trends overall

/-- Direction reported by the overall market trend, when present. -/
def overall_direction : TrendResult → Option String
  | .trends _ (.data direction _ _ _) => some direction
  | _ => none

/-- Trend string of the vendor's entry, when present. -/
def vendor_direction (vid : String) : TrendResult → Option String
  | .trends vts _ => (vts.find? (fun e => e.1 == vid)).map (fun e => e.2.trend)
  | _ => none

/-! ## BaseScraper.normalize_price (scrapers/base.py lines 64-89) -/

/-- Character filter of re.sub(r'[^\d.,]', '', ...): keep only digits,
dots and commas. -/
def cleanedChars (l : List Char) : List Char :=
  l.filter (fun c => c.isDigit || c == '.' || c == ',')

/-- All ways for the group (?:,\d{3})* to match a prefix of the input,
greediest first: each element is (consumed characters, rest). -/
def commaGroups : List Char → List (List Char × List Char)
  | ',' :: a :: b :: c :: rest =>
    if a.isDigit && b.isDigit && c.isDigit then
      ((commaGroups rest).map
        (fun pr => (',' :: a :: b :: c :: pr.1, pr.2))) ++ [([], ',' :: a :: b :: c :: rest)]
    else [([], ',' :: a :: b :: c :: rest)]
  | l => [([], l)]

/-- Match of \.\d{2} at the head of the input. -/
def dotTwo (l : List Char) : Option (List Char) :=
  match l with
  | '.' :: a :: b :: _ => if a.isDigit && b.isDigit then some ['.', a, b] else none
  | _ => none

/-- Match, at one position, of r'(\d{1,3}(?:,\d{3})*\.\d{2})': try the
digit-run lengths 3, 2, 1 (greedy), and for each the comma groups
greediest first, then require the decimal part. -/
def pat1At (l : List Char) : Option (List Char) :=
  let run := (l.takeWhile Char.isDigit).length
  let tryK : ℕ → Option (List Char) := fun k =>
    if 1 ≤ k ∧ k ≤ run then
      let ds := l.take k
      (commaGroups (l.drop k)).findSome? (fun pr =>
        (dotTwo pr.2).map (fun dot => ds ++ pr.1 ++ dot))
    else none
  ((tryK 3).orElse (fun _ => tryK 2)).orElse (fun _ => tryK 1)

/-- Match, at one position, of r'(\d{1,3}(?:,\d{3})*)': maximal digit
run up to 3, then the greediest comma groups; nothing follows, so no
backtracking. -/
def pat2At (l : List Char) : Option (List Char) :=
  let run := (l.takeWhile Char.isDigit).length
  if run = 0 then none
  else
    let k := min 3 run
    let ds := l.take k
    match (commaGroups (l.drop k)).head? with
    | some pr => some (ds ++ pr.1)
    | none => some ds

/-- Match, at one position, of r'(\d+\.\d{2})': maximal digit run, then
the decimal part (a shorter run leaves a digit where the dot must be). -/
def pat3At (l : List Char) : Option (List Char) :=
  let run := l.takeWhile Char.isDigit
  if run.isEmpty then none
  else (dotTwo (l.drop run.length)).map (fun dot => run ++ dot)

/-- Match, at one position, of r'(\d+)'. -/
def pat4At (l : List Char) : Option (List Char) :=
  let run := l.takeWhile Char.isDigit
  if run.isEmpty then none else some run

/-- re.search: try the pattern at each position, leftmost match wins. -/
def searchAt (patAt : List Char → Option (List Char)) : List Char → Option (List Char)
  | [] => patAt []
  | c :: t => (patAt (c :: t)).orElse (fun _ => searchAt patAt t)

/-- Numeric value of a digit string. -/
def digitsToNat (l : List Char) : ℕ :=
  l.foldl (fun n c => n * 10 + (c.toNat - '0'.toNat)) 0

/-- Decimal(price_str) on the comma-free matched text: digits with an
optional fractional part.  Returns none on any other shape (the broad
except of normalize_price falls through to the next pattern). -/
def parsePriceStr (l : List Char) : Option ℚ :=
  let intPart := l.takeWhile Char.isDigit
  if intPart.isEmpty then none
  else
    match l.drop intPart.length with
    | [] => some ((digitsToNat intPart : ℕ) : ℚ)
    | '.' :: frac =>
      if frac ≠ [] ∧ frac.all Char.isDigit then
        some (((digitsToNat intPart : ℕ) : ℚ) +
          ((digitsToNat frac : ℕ) : ℚ) / ((10 ^ frac.length : ℕ) : ℚ))
      else none
    | _ => none

/-- One iteration of the pattern loop of normalize_price: search the
pattern over the cleaned text, strip the thousands separators from the
match and parse it. -/
def tryPattern (patAt : List Char → Option (List Char)) (cleaned : List Char) :
    Option ℚ :=
  (searchAt patAt cleaned).bind
    (fun m => parsePriceStr (m.filter (fun c => c ≠ ',')))

/-- BaseScraper.normalize_price (scrapers/base.py lines 64-89): None on
a falsy input; otherwise strip, remove everything but digits, dots and
commas, and return the value of the first price pattern that matches
and parses. -/
def normalize_price (price_text : String) : Option ℚ :=
  if price_text = "" then none
  else
    let cleaned := cleanedChars (stripWs price_text.toList)
    (((tryPattern pat1At cleaned).orElse
      (fun _ => tryPattern pat2At cleaned)).orElse
      (fun _ => tryPattern pat3At cleaned)).orElse
      (fun _ => tryPattern pat4At cleaned)

/-! ## Characterizations of the ledger operations -/

/-- Effective original price seen by update_or_create_price: the
observation's original_price when truthy, else None. -/
def effOrig (d : ScrapedData) : Option ℚ :=
  if truthyOpt d.original_price then d.original_price else none

/-- The Price row written by the update branch of
update_or_create_price. -/
def serviceUpdatedPrice (ex : Price) (d : ScrapedData) (now : Time) : Price :=
  { ex with
    price := d.price
    original_price := effOrig d
    discount_percentage := serviceDiscount (effOrig d) d.price
    stock_status := d.stock_status.getD "in_stock"
    product_url := d.product_url.getD ex.product_url
    variation_details := d.variations.getD (.dict [])
    last_updated_at := now }

/-- The Price row written by the insert branch of
update_or_create_price. -/
def serviceNewPrice (pid vid : String) (d : ScrapedData) (now : Time)
    (new_id : String) : Price :=
  { id := new_id
    product_id := pid
    vendor_id := vid
    price := d.price
    original_price := effOrig d
    discount_percentage := serviceDiscount (effOrig d) d.price
    stock_status := d.stock_status.getD "in_stock"
    product_url := d.product_url.getD ""
    variation_details := d.variations.getD (.dict [])
    last_updated_at := now }

/-- The Price row written by the update branch of _store_product_data:
variation_details is inherited from the existing row, and the discount
is reassigned only when recomputed. -/
def pipelineUpdatedPrice (ex : Price) (obs : ScrapedProduct) (now : Time) : Price :=
  let base : Price :=
    { ex with
      price := obs.price
      original_price := obs.original_price
      stock_status := obs.stock_status
      product_url := obs.product_url
      last_updated_at := now }
  match pipelineDiscount obs with
  | some dq => { base with discount_percentage := some dq }
  | none => base

/-- The Price row written by the insert branch of _store_product_data. -/
def pipelineNewPrice (obs : ScrapedProduct) (pid vid nprid : String)
    (now : Time) : Price :=
  { id := nprid
    product_id := pid
    vendor_id := vid
    price := obs.price
    original_price := obs.original_price
    discount_percentage := pipelineDiscount obs
    stock_status := obs.stock_status
    product_url := obs.product_url
    variation_details := .arr obs.variations
    last_updated_at := now }

/-- Number of Price rows for one (product, vendor) pair. -/
def countPrices (pid vid : String) (l : List Price) : ℕ :=
  l.countP (priceKey pid vid)

/-- Branch equation: update_or_create_price on a pair that has an
existing Price row. -/
lemma update_or_create_price_existing (st : St) (pid vid : String)
    (d : ScrapedData) (now : Time) (nid : String) (ex : Price)
    (h : st.prices.find? (priceKey pid vid) = some ex) :
    update_or_create_price st pid vid d now nid =
      ({ st with
          prices := replaceFirstPrice pid vid (serviceUpdatedPrice ex d now) st.prices
          history :=
            if |ex.price - d.price| > 1/100 then
              st.history ++ [archive_price_to_history ex]
            else st.history },
       serviceUpdatedPrice ex d now) := by
  unfold update_or_create_price
  rw [h]
  rfl

/-- Branch equation: update_or_create_price on a pair with no existing
Price row. -/
lemma update_or_create_price_new (st : St) (pid vid : String)
    (d : ScrapedData) (now : Time) (nid : String)
    (h : st.prices.find? (priceKey pid vid) = none) :
    update_or_create_price st pid vid d now nid =
      ({ st with prices := st.prices ++ [serviceNewPrice pid vid d now nid] },
       serviceNewPrice pid vid d now nid) := by
  unfold update_or_create_price
  rw [h]
  rfl

/-- The matcher never touches the prices table. -/
lemma find_matching_product_prices (fr fts fpr : String → String → ℚ) (thr : ℚ)
    (obs : ScrapedProduct) (st : St) (npid : String) :
    (find_matching_product fr fts fpr thr obs st npid).2.prices = st.prices := by
  unfold find_matching_product
  cases (st.products.foldl (match_step fr fts fpr thr obs.name) (none, 0)).1 <;> rfl

/-- The matcher never touches the history table. -/
lemma find_matching_product_history (fr fts fpr : String → String → ℚ) (thr : ℚ)
    (obs : ScrapedProduct) (st : St) (npid : String) :
    (find_matching_product fr fts fpr thr obs st npid).2.history = st.history := by
  unfold find_matching_product
  cases (st.products.foldl (match_step fr fts fpr thr obs.name) (none, 0)).1 <;> rfl

/-- Branch equation: _store_product_data when the resolved product
already has a Price row at this vendor. -/
lemma store_product_data_existing (fr fts fpr : String → String → ℚ) (thr : ℚ)
    (obs : ScrapedProduct) (vid : String) (st : St) (now : Time)
    (npid nprid : String) (ex : Price)
    (h : st.prices.find?
        (priceKey (find_matching_product fr fts fpr thr obs st npid).1.product.id vid)
        = some ex) :
    store_product_data fr fts fpr thr obs vid st now npid nprid =
      ((find_matching_product fr fts fpr thr obs st npid).1,
       { (find_matching_product fr fts fpr thr obs st npid).2 with
          prices := replaceFirstPrice
            (find_matching_product fr fts fpr thr obs st npid).1.product.id vid
            (pipelineUpdatedPrice ex obs now) st.prices
          products := bump_first_product
            (find_matching_product fr fts fpr thr obs st npid).1.product.id
            (find_matching_product fr fts fpr thr obs st npid).2.products }) := by
  simp only [store_product_data]
  rw [find_matching_product_prices, h]
  rfl

/-- Branch equation: _store_product_data when the resolved product has
no Price row at this vendor yet. -/
lemma store_product_data_new (fr fts fpr : String → String → ℚ) (thr : ℚ)
    (obs : ScrapedProduct) (vid : String) (st : St) (now : Time)
    (npid nprid : String)
    (h : st.prices.find?
        (priceKey (find_matching_product fr fts fpr thr obs st npid).1.product.id vid)
        = none) :
    store_product_data fr fts fpr thr obs vid st now npid nprid =
      ((find_matching_product fr fts fpr thr obs st npid).1,
       { (find_matching_product fr fts fpr thr obs st npid).2 with
          prices := st.prices ++
            [pipelineNewPrice obs
              (find_matching_product fr fts fpr thr obs st npid).1.product.id vid nprid now]
          products := bump_first_product
            (find_matching_product fr fts fpr thr obs st npid).1.product.id
            (find_matching_product fr fts fpr thr obs st npid).2.products }) := by
  simp only [store_product_data]
  rw [find_matching_product_prices, h]
  rfl

/-- find? after replacing the first matching row by a matching row. -/
lemma find?_replaceFirstPrice (pid vid : String) (u : Price)
    (hu : priceKey pid vid u = true) :
    ∀ (l : List Price) (ex : Price), l.find? (priceKey pid vid) = some ex →
      (replaceFirstPrice pid vid u l).find? (priceKey pid vid) = some u := by
  intro l
  induction l with
  | nil => intro ex h; simp at h
  | cons p ps ih =>
    intro ex h
    by_cases hp : priceKey pid vid p = true
    · simp [replaceFirstPrice, hp, List.find?_cons_of_pos _ hu]
    · have h' : ps.find? (priceKey pid vid) = some ex := by
        simpa [List.find?_cons_of_neg _ hp] using h
      simp only [replaceFirstPrice, hp, if_false, Bool.false_eq_true]
      rw [List.find?_cons_of_neg _ hp]
      exact ih ex h'

/-- Row counts are preserved when the first matching row is replaced by
a matching row. -/
lemma countP_replaceFirstPrice (pid vid : String) (u : Price)
    (hu : priceKey pid vid u = true) :
    ∀ l : List Price,
      countPrices pid vid (replaceFirstPrice pid vid u l) = countPrices pid vid l := by
  intro l
  induction l with
  | nil => rfl
  | cons p ps ih =>
    by_cases hp : priceKey pid vid p = true
    · simp only [replaceFirstPrice, hp, if_true]
      simp [countPrices, List.countP_cons, hp, hu]
    · simp only [replaceFirstPrice, hp, if_false, Bool.false_eq_true]
      simp only [countPrices, List.countP_cons, hp] at ih ⊢
      simpa using ih

/-- The found row satisfies the key predicate. -/
lemma priceKey_of_find? {pid vid : String} {l : List Price} {ex : Price}
    (h : l.find? (priceKey pid vid) = some ex) : priceKey pid vid ex = true :=
  List.find?_some h

/-- The updated row of the service update branch keeps the pair key. -/
lemma priceKey_serviceUpdatedPrice {pid vid : String} {ex : Price}
    (d : ScrapedData) (now : Time) (hex : priceKey pid vid ex = true) :
    priceKey pid vid (serviceUpdatedPrice ex d now) = true := hex

/-- The inserted row of the service insert branch has the pair key. -/
lemma priceKey_serviceNewPrice (pid vid : String) (d : ScrapedData) (now : Time)
    (nid : String) : priceKey pid vid (serviceNewPrice pid vid d now nid) = true := by
  simp [priceKey, serviceNewPrice]

/-- The updated row of the pipeline update branch keeps the pair key. -/
lemma priceKey_pipelineUpdatedPrice {pid vid : String} {ex : Price}
    (obs : ScrapedProduct) (now : Time) (hex : priceKey pid vid ex = true) :
    priceKey pid vid (pipelineUpdatedPrice ex obs now) = true := by
  unfold pipelineUpdatedPrice
  cases pipelineDiscount obs <;> exact hex

/-- find? over an append whose left part has no match. -/
lemma find?_append_of_none {α : Type} {p : α → Bool} :
    ∀ {l : List α}, l.find? p = none → ∀ {u : α}, p u = true →
      (l ++ [u]).find? p = some u := by
  intro l
  induction l with
  | nil => intro _ u hu; simp [List.find?_cons_of_pos _ hu]
  | cons a t ih =>
    intro h u hu
    by_cases ha : p a = true
    · rw [List.find?_cons_of_pos _ ha] at h; exact absurd h (by simp)
    · rw [List.find?_cons_of_neg _ ha] at h
      simpa [List.find?_cons_of_neg _ ha] using ih h hu

/-- A pair with a found row has at least one row. -/
lemma countPrices_pos_of_find? {pid vid : String} {l : List Price} {ex : Price}
    (h : l.find? (priceKey pid vid) = some ex) : 0 < countPrices pid vid l := by
  refine List.countP_pos_iff.mpr ⟨ex, List.mem_of_find?_eq_some h, List.find?_some h⟩

/-- A pair with no found row has no rows. -/
lemma countPrices_eq_zero_of_find? {pid vid : String} {l : List Price}
    (h : l.find? (priceKey pid vid) = none) : countPrices pid vid l = 0 := by
  refine List.countP_eq_zero.mpr ?_
  intro a ha
  exact List.find?_eq_none.mp h a ha

/-! ## Claim C8: freshness boundaries -/

/-- Case analysis of the freshness bucket of an age in hours. -/
lemma freshness_of_hours_cases (h : ℚ) :
    (freshness_status_of_hours h = "fresh" ↔ h ≤ 12)
    ∧ (freshness_status_of_hours h = "aging" ↔ 12 < h ∧ h ≤ 24)
    ∧ (freshness_status_of_hours h = "stale" ↔ 24 < h) := by
  have hsf : ("stale" : String) ≠ "fresh" := by decide
  have hsa : ("stale" : String) ≠ "aging" := by decide
  have haf : ("aging" : String) ≠ "fresh" := by decide
  have has : ("aging" : String) ≠ "stale" := by decide
  have hfa : ("fresh" : String) ≠ "aging" := by decide
  have hfs : ("fresh" : String) ≠ "stale" := by decide
  unfold freshness_status_of_hours
  split_ifs with h1 h2
  · exact ⟨⟨fun hx => absurd hx hsf, fun hx => absurd hx (not_le.mpr (by linarith))⟩,
      ⟨fun hx => absurd hx hsa, fun hx => absurd hx.2 (not_le.mpr h1)⟩,
      ⟨fun _ => h1, fun _ => rfl⟩⟩
  · exact ⟨⟨fun hx => absurd hx haf, fun hx => absurd hx (not_le.mpr h2)⟩,
      ⟨fun _ => ⟨h2, not_lt.mp h1⟩, fun _ => rfl⟩,
      ⟨fun hx => absurd hx has, fun hx => absurd hx h1⟩⟩
  · exact ⟨⟨fun _ => not_lt.mp h2, fun _ => rfl⟩,
      ⟨fun hx => absurd hx hfa, fun hx => absurd hx.1 h2⟩,
      ⟨fun hx => absurd hx hfs, fun hx => absurd hx h1⟩⟩

/-- C8: for every Price record, the freshness classification of its age
h in hours since last_updated is fresh iff h ≤ 12, aging iff
12 < h ≤ 24 and stale iff h > 24; in particular an age of exactly 24
hours is aging and an age of exactly 12 hours is fresh. -/
theorem c8_freshness_boundaries (now : Time) (p : Price) :
    (freshness_status now p = "fresh" ↔ (now - p.last_updated_at) / 3600 ≤ 12)
    ∧ (freshness_status now p = "aging" ↔
        12 < (now - p.last_updated_at) / 3600 ∧ (now - p.last_updated_at) / 3600 ≤ 24)
    ∧ (freshness_status now p = "stale" ↔ 24 < (now - p.last_updated_at) / 3600)
    ∧ freshness_status_of_hours 24 = "aging"
    ∧ freshness_status_of_hours 12 = "fresh" := by
  have h := freshness_of_hours_cases ((now - p.last_updated_at) / 3600)
  exact ⟨h.1, h.2.1, h.2.2, by decide, by decide⟩

/-! ## Claim C4: item-level errors never fail a vendor run -/

/-- The store loop adds the item counts onto the accumulator. -/
lemma inner_fold_counts (items : List ItemOutcome) :
    ∀ acc : ℕ × ℕ,
      items.foldl
        (fun acc2 item =>
          match item with
          | .ok _ => (acc2.1 + 1, acc2.2)
          | .error _ => (acc2.1, acc2.2 + 1)) acc
      = (acc.1 + okOfQuery (.ok items), acc.2 + errorsOfQuery (.ok items)) := by
  induction items with
  | nil => intro acc; simp [okOfQuery, errorsOfQuery]
  | cons i t ih =>
    intro acc
    cases i with
    | ok u =>
      rw [List.foldl_cons, ih]
      simp [okOfQuery, errorsOfQuery, List.countP_cons, Prod.ext_iff]
      omega
    | error e =>
      rw [List.foldl_cons, ih]
      simp [okOfQuery, errorsOfQuery, List.countP_cons, Prod.ext_iff]
      omega

/-- The query loop adds each query's counts onto the accumulator. -/
lemma outer_fold_counts (queries : List QueryOutcome) :
    ∀ acc : ℕ × ℕ,
      queries.foldl
        (fun acc q =>
          match q with
          | .error _ => (acc.1, acc.2 + 1)
          | .ok items =>
            items.foldl
              (fun acc2 item =>
                match item with
                | .ok _ => (acc2.1 + 1, acc2.2)
                | .error _ => (acc2.1, acc2.2 + 1))
              acc) acc
      = (acc.1 + total_scraped queries, acc.2 + total_errors queries) := by
  induction queries with
  | nil => intro acc; simp [total_scraped, total_errors]
  | cons q t ih =>
    intro acc
    cases q with
    | ok items =>
      rw [List.foldl_cons]
      dsimp only
      rw [inner_fold_counts, ih]
      simp [total_scraped, total_errors, Prod.ext_iff]
      omega
    | error e =>
      rw [List.foldl_cons]
      dsimp only
      rw [ih]
      simp [total_scraped, total_errors, errorsOfQuery, okOfQuery, Prod.ext_iff]
      omega

/-- The accumulated pair of a vendor run is exactly (successful stores,
query errors + store errors). -/
lemma run_vendor_scraper_eq (queries : List QueryOutcome) :
    run_vendor_scraper queries = (total_scraped queries, total_errors queries) := by
  unfold run_vendor_scraper
  rw [outer_fold_counts]
  simp

/-- Concrete vendor run for the 3-failures-out-of-10-queries scenario:
queries 2, 5 and 8 throw, the others store two products each. -/
def exampleQueries : List QueryOutcome :=
  [.ok [.ok (), .ok ()], .error "io error", .ok [.ok (), .ok ()],
   .ok [.ok (), .ok ()], .error "io error", .ok [.ok (), .ok ()],
   .ok [.ok (), .ok ()], .error "io error", .ok [.ok (), .ok ()],
   .ok [.ok (), .ok ()]]

/-- C4: an exception thrown while executing an individual query or
storing an individual product is caught inside the run: each failure
adds one to errors_count, the run finishes with status completed and
products_scraped equal to the number of successful stores (for the
concrete 10-query run with 3 throwing queries: completed, 3 errors, 14
products); the run is marked failed exactly when an exception escapes
the per-query/per-product boundaries. -/
theorem c4_item_errors_never_fail_run (run : ScraperRun) (now : Time)
    (queries : List QueryOutcome) :
    (vendor_run run (.ok queries) now).status = "completed"
    ∧ (vendor_run run (.ok queries) now).errors_count = total_errors queries
    ∧ (vendor_run run (.ok queries) now).products_scraped = total_scraped queries
    ∧ (∀ e : String, (vendor_run run (.error e) now).status = "failed")
    ∧ (vendor_run run (.ok exampleQueries) now).status = "completed"
    ∧ (vendor_run run (.ok exampleQueries) now).errors_count = 3
    ∧ (vendor_run run (.ok exampleQueries) now).products_scraped = 14 := by
  have hq := run_vendor_scraper_eq queries
  have he := run_vendor_scraper_eq exampleQueries
  refine ⟨rfl, ?_, ?_, fun e => rfl, rfl, ?_, ?_⟩
  · show (run_vendor_scraper queries).2 = total_errors queries
    rw [hq]
  · show (run_vendor_scraper queries).1 = total_scraped queries
    rw [hq]
  · show (run_vendor_scraper exampleQueries).2 = 3
    rw [he]; rfl
  · show (run_vendor_scraper exampleQueries).1 = 14
    rw [he]; rfl

/-! ## Claim C1: discount derivation -/

/-- Empty database state. -/
def stEmpty : St := { products := [], categories := [], prices := [], history := [] }

/-- Observation with price 2 against an original price of 3: the exact
discount is 100/3 percent, which no 2-decimal value equals. -/
def dThird : ScrapedData := { price := 2, original_price := some 3 }

/-- C1 counterexample: update_or_create_price stores the exact value
100/3 for the discount of price 2 against original price 3, not the
value rounded to 2 decimals (33.33) that the claim requires. -/
theorem c1_discount_counterexample :
    (update_or_create_price stEmpty "p1" "v1" dThird 0 "id1").2.discount_percentage
      = some (100 / 3)
    ∧ pyRound2 ((((3 : ℚ) - 2) / 3) * 100) = 3333 / 100
    ∧ ((100 : ℚ) / 3) ≠ 3333 / 100 := by
  refine ⟨?_, ?_, by norm_num⟩
  · have h : stEmpty.prices.find? (priceKey "p1" "v1") = none := rfl
    rw [update_or_create_price_new stEmpty "p1" "v1" dThird 0 "id1" h]
    show serviceDiscount (effOrig dThird) dThird.price = some (100 / 3)
    rw [show effOrig dThird = some 3 by norm_num [effOrig, truthyOpt, dThird]]
    show (if dThird.price < 3 then some (((3 - dThird.price) / 3) * 100) else none)
      = some (100 / 3)
    rw [if_pos (by norm_num [dThird])]
    norm_num [dThird]
  · have hfl : ⌊(((3 : ℚ) - 2) / 3) * 100 * 100⌋ = 3333 := by
      rw [Int.floor_eq_iff]
      norm_num
    simp only [pyRound2]
    rw [hfl]
    rw [if_pos (by norm_num)]
    norm_num

/-- C1 amended: on every apply, update_or_create_price stores the
discount recomputed from the incoming observation alone — the exact,
unrounded value ((original - price)/original)*100 when the original
price is truthy and strictly greater than the price, null otherwise —
while _store_product_data stores the value rounded to 2 decimals
whenever both original_price and price are truthy (even when the
original does not exceed the price), and when they are not truthy a
newly inserted row stores null but an updated row keeps the previously
stored discount. -/
theorem c1_discount_amended (fr fts fpr : String → String → ℚ) (thr : ℚ)
    (st : St) (pid vid pvid : String) (d : ScrapedData) (obs : ScrapedProduct)
    (now : Time) (nid npid nprid : String) :
    ((update_or_create_price st pid vid d now nid).2.discount_percentage
        = serviceDiscount (effOrig d) d.price)
    ∧ ((update_or_create_price st pid vid d now nid).1.prices.find? (priceKey pid vid)
        = some (update_or_create_price st pid vid d now nid).2)
    ∧ (∀ ex, st.prices.find?
          (priceKey (find_matching_product fr fts fpr thr obs st npid).1.product.id pvid)
          = some ex →
        ((store_product_data fr fts fpr thr obs pvid st now npid nprid).2.prices.find?
            (priceKey (find_matching_product fr fts fpr thr obs st npid).1.product.id pvid)).map
          Price.discount_percentage
        = some (match pipelineDiscount obs with
                | some dq => some dq
                | none => ex.discount_percentage))
    ∧ (st.prices.find?
          (priceKey (find_matching_product fr fts fpr thr obs st npid).1.product.id pvid)
          = none →
        ((store_product_data fr fts fpr thr obs pvid st now npid nprid).2.prices.find?
            (priceKey (find_matching_product fr fts fpr thr obs st npid).1.product.id pvid)).map
          Price.discount_percentage
        = some (pipelineDiscount obs)) := by
  refine ⟨?_, ?_, ?_, ?_⟩
  · cases h : st.prices.find? (priceKey pid vid) with
    | some ex => rw [update_or_create_price_existing st pid vid d now nid ex h]; rfl
    | none => rw [update_or_create_price_new st pid vid d now nid h]; rfl
  · cases h : st.prices.find? (priceKey pid vid) with
    | some ex =>
      rw [update_or_create_price_existing st pid vid d now nid ex h]
      exact find?_replaceFirstPrice pid vid _
        (priceKey_serviceUpdatedPrice d now (priceKey_of_find? h)) st.prices ex h
    | none =>
      rw [update_or_create_price_new st pid vid d now nid h]
      exact find?_append_of_none h (priceKey_serviceNewPrice pid vid d now nid)
  · intro ex h
    rw [store_product_data_existing fr fts fpr thr obs pvid st now npid nprid ex h]
    have hfind := find?_replaceFirstPrice
      (find_matching_product fr fts fpr thr obs st npid).1.product.id pvid
      (pipelineUpdatedPrice ex obs now)
      (priceKey_pipelineUpdatedPrice obs now (priceKey_of_find? h)) st.prices ex h
    rw [hfind]
    cases hd : pipelineDiscount obs <;> simp [pipelineUpdatedPrice, hd]
  · intro h
    rw [store_product_data_new fr fts fpr thr obs pvid st now npid nprid h]
    have hkey : priceKey (find_matching_product fr fts fpr thr obs st npid).1.product.id
        pvid (pipelineNewPrice obs
          (find_matching_product fr fts fpr thr obs st npid).1.product.id pvid nprid now)
        = true := by
      simp [priceKey, pipelineNewPrice]
    rw [find?_append_of_none h hkey]
    rfl

/-- Product-less state holding one Price row with a previously stored
discount, used to exercise the existing-row branches. -/
def prOne : Price :=
  { id := "pr1", product_id := "np1", vendor_id := "v1", price := 5,
    original_price := none, discount_percentage := some 7,
    stock_status := "in_stock", product_url := "u",
    variation_details := .dict [], last_updated_at := 0 }

/-- State holding exactly the row prOne. -/
def stOne : St := { products := [], categories := [], prices := [prOne], history := [] }

/-- Score function used to instantiate the external similarity
measures in concrete runs. -/
def fzero : String → String → ℚ := fun _ _ => 0

/-- Observation without an original price. -/
def obsPlain : ScrapedProduct :=
  { name := "widget", price := 5, original_price := none,
    stock_status := "in_stock", product_url := "u", image_url := none,
    variations := [] }

/-- C1 witness: on the concrete state stOne the pipeline update keeps
the stale stored discount 7 because the observation has no original
price, and the service apply recomputes the discount from the
observation. -/
theorem c1_discount_witness :
    (((store_product_data fzero fzero fzero 80 obsPlain "v1" stOne 1 "np1" "npr1").2.prices.find?
        (priceKey "np1" "v1")).map Price.discount_percentage) = some (some 7)
    ∧ (update_or_create_price stOne "np1" "v1" dThird 2 "id2").2.discount_percentage
        = serviceDiscount (effOrig dThird) dThird.price := by
  constructor
  · have h := (c1_discount_amended fzero fzero fzero 80 stOne "np1" "v1" "v1" dThird
      obsPlain 1 "id9" "np1" "npr1").2.2.1 prOne (by decide)
    exact h
  · exact (c1_discount_amended fzero fzero fzero 80 stOne "np1" "v1" "v1" dThird
      obsPlain 2 "id2" "np1" "npr1").1

/-! ## Claim C2: history archival and idempotence -/

/-- C2: when apply finds an existing Price for the pair, it appends
exactly one PriceHistory row iff the new price differs from the stored
one by more than 0.01; the history row copies the superseded values,
with recorded_at equal to the superseded row's last_updated_at; and
applying the identical observation twice adds no history on the second
apply and leaves exactly one Price row for the pair. -/
theorem c2_history_archival (st : St) (pid vid : String) (d : ScrapedData)
    (now now2 : Time) (nid nid2 : String) :
    (∀ ex, st.prices.find? (priceKey pid vid) = some ex →
      ((|ex.price - d.price| > 1/100 →
          (update_or_create_price st pid vid d now nid).1.history
            = st.history ++ [archive_price_to_history ex])
        ∧ (¬ |ex.price - d.price| > 1/100 →
          (update_or_create_price st pid vid d now nid).1.history = st.history)
        ∧ (archive_price_to_history ex).price = ex.price
        ∧ (archive_price_to_history ex).original_price = ex.original_price
        ∧ (archive_price_to_history ex).discount_percentage = ex.discount_percentage
        ∧ (archive_price_to_history ex).stock_status = ex.stock_status
        ∧ (archive_price_to_history ex).product_url = ex.product_url
        ∧ (archive_price_to_history ex).variation_details = ex.variation_details
        ∧ (archive_price_to_history ex).recorded_at = ex.last_updated_at))
    ∧ (countPrices pid vid st.prices ≤ 1 →
        ((update_or_create_price (update_or_create_price st pid vid d now nid).1
            pid vid d now2 nid2).1.history
          = (update_or_create_price st pid vid d now nid).1.history)
        ∧ countPrices pid vid
            (update_or_create_price (update_or_create_price st pid vid d now nid).1
              pid vid d now2 nid2).1.prices = 1) := by
  constructor
  · intro ex h
    have hst := update_or_create_price_existing st pid vid d now nid ex h
    refine ⟨fun hc => ?_, fun hc => ?_, rfl, rfl, rfl, rfl, rfl, rfl, rfl⟩
    · rw [hst]; dsimp only; rw [if_pos hc]
    · rw [hst]; dsimp only; rw [if_neg hc]
  · intro hcount
    have hzero : ¬ |d.price - d.price| > (1 : ℚ)/100 := by
      simp
    cases h : st.prices.find? (priceKey pid vid) with
    | some ex =>
      have hkey := priceKey_of_find? h
      have hukey : priceKey pid vid (serviceUpdatedPrice ex d now) = true :=
        priceKey_serviceUpdatedPrice d now hkey
      have hst1 := update_or_create_price_existing st pid vid d now nid ex h
      have hpr1 : (update_or_create_price st pid vid d now nid).1.prices
          = replaceFirstPrice pid vid (serviceUpdatedPrice ex d now) st.prices := by
        rw [hst1]
      have hfind1 : (update_or_create_price st pid vid d now nid).1.prices.find?
          (priceKey pid vid) = some (serviceUpdatedPrice ex d now) := by
        rw [hpr1]
        exact find?_replaceFirstPrice pid vid _ hukey st.prices ex h
      have hst2 := update_or_create_price_existing
        (update_or_create_price st pid vid d now nid).1 pid vid d now2 nid2
        (serviceUpdatedPrice ex d now) hfind1
      constructor
      · rw [hst2]
        dsimp only [serviceUpdatedPrice]
        rw [if_neg hzero]
      · have hpr2 : (update_or_create_price (update_or_create_price st pid vid d now nid).1
            pid vid d now2 nid2).1.prices
            = replaceFirstPrice pid vid
                (serviceUpdatedPrice (serviceUpdatedPrice ex d now) d now2)
                (update_or_create_price st pid vid d now nid).1.prices := by
          rw [hst2]
        rw [hpr2,
          countP_replaceFirstPrice pid vid _ (priceKey_serviceUpdatedPrice d now2 hukey),
          hpr1,
          countP_replaceFirstPrice pid vid _ hukey]
        exact le_antisymm hcount (countPrices_pos_of_find? h)
    | none =>
      have hnkey := priceKey_serviceNewPrice pid vid d now nid
      have hst1 := update_or_create_price_new st pid vid d now nid h
      have hpr1 : (update_or_create_price st pid vid d now nid).1.prices
          = st.prices ++ [serviceNewPrice pid vid d now nid] := by
        rw [hst1]
      have hfind1 : (update_or_create_price st pid vid d now nid).1.prices.find?
          (priceKey pid vid) = some (serviceNewPrice pid vid d now nid) := by
        rw [hpr1]
        exact find?_append_of_none h hnkey
      have hst2 := update_or_create_price_existing
        (update_or_create_price st pid vid d now nid).1 pid vid d now2 nid2
        (serviceNewPrice pid vid d now nid) hfind1
      constructor
      · rw [hst2]
        dsimp only [serviceNewPrice]
        rw [if_neg hzero]
      · have hpr2 : (update_or_create_price (update_or_create_price st pid vid d now nid).1
            pid vid d now2 nid2).1.prices
            = replaceFirstPrice pid vid
                (serviceUpdatedPrice (serviceNewPrice pid vid d now nid) d now2)
                (update_or_create_price st pid vid d now nid).1.prices := by
          rw [hst2]
        rw [hpr2,
          countP_replaceFirstPrice pid vid _
            (priceKey_serviceUpdatedPrice d now2 hnkey),
          hpr1, countPrices, List.countP_append]
        have h0 : countPrices pid vid st.prices = 0 := countPrices_eq_zero_of_find? h
        rw [countPrices] at h0
        rw [h0]
        simp [List.countP_cons, hnkey]

/-- C2 witness: on the concrete state stOne (stored price 5), applying
the observation dThird (price 2) archives prOne exactly once, and a
repeated identical apply adds no further history and leaves one Price
row. -/
theorem c2_history_witness :
    (update_or_create_price stOne "np1" "v1" dThird 3 "x1").1.history
      = stOne.history ++ [archive_price_to_history prOne]
    ∧ ((update_or_create_price (update_or_create_price stOne "np1" "v1" dThird 3 "x1").1
          "np1" "v1" dThird 4 "x2").1.history
        = (update_or_create_price stOne "np1" "v1" dThird 3 "x1").1.history)
    ∧ countPrices "np1" "v1"
        (update_or_create_price (update_or_create_price stOne "np1" "v1" dThird 3 "x1").1
          "np1" "v1" dThird 4 "x2").1.prices = 1 := by
  have h := c2_history_archival stOne "np1" "v1" dThird 3 4 "x1" "x2"
  have habs : |prOne.price - dThird.price| > (1 : ℚ)/100 := by
    norm_num [prOne, dThird]
  refine ⟨(h.1 prOne (by decide)).1 habs, (h.2 (by decide)).1, (h.2 (by decide)).2⟩

/-! ## Claim C5: fields overwritten on update -/

/-- Field values of the pipeline update row: stock_status, product_url
and last_updated come from the observation, variation_details stays the
existing row's. -/
lemma pipelineUpdatedPrice_fields (ex : Price) (obs : ScrapedProduct) (now : Time) :
    (pipelineUpdatedPrice ex obs now).stock_status = obs.stock_status
    ∧ (pipelineUpdatedPrice ex obs now).product_url = obs.product_url
    ∧ (pipelineUpdatedPrice ex obs now).last_updated_at = now
    ∧ (pipelineUpdatedPrice ex obs now).variation_details = ex.variation_details
    ∧ (pipelineUpdatedPrice ex obs now).price = obs.price
    ∧ (pipelineUpdatedPrice ex obs now).original_price = obs.original_price := by
  unfold pipelineUpdatedPrice
  cases pipelineDiscount obs <;> exact ⟨rfl, rfl, rfl, rfl, rfl, rfl⟩

/-- Existing Price row with variation details, for the frame-effect
counterexample. -/
def prVar : Price :=
  { id := "pr2", product_id := "np1", vendor_id := "v1", price := 5,
    original_price := none, discount_percentage := none,
    stock_status := "in_stock", product_url := "u",
    variation_details := .dict [("color", "red")], last_updated_at := 0 }

/-- State holding exactly the row prVar. -/
def stVar : St := { products := [], categories := [], prices := [prVar], history := [] }

/-- Observation carrying different variation details. -/
def obsVar : ScrapedProduct :=
  { name := "widget", price := 5, original_price := none,
    stock_status := "out_of_stock", product_url := "u2", image_url := none,
    variations := [[("color", "blue")]] }

/-- C5 counterexample: applying obsVar over the existing row prVar
through the scraper pipeline leaves variation_details at the old stored
value instead of overwriting it with the observation's variations. -/
theorem c5_overwrite_counterexample :
    ((store_product_data fzero fzero fzero 80 obsVar "v1" stVar 1 "np1" "npr2").2.prices.find?
        (priceKey "np1" "v1")).map Price.variation_details
      = some (.dict [("color", "red")])
    ∧ VarDetails.dict [("color", "red")] ≠ .arr [[("color", "blue")]]
    ∧ obsVar.variations = [[("color", "blue")]] := by
  refine ⟨by decide, by decide, by decide⟩

/-- C5 amended: on an apply against an existing Price,
update_or_create_price overwrites stock_status (defaulting to in_stock
when absent), variation_details (defaulting to the empty dict when
absent) and last_updated, and overwrites product_url only when the
observation carries one (keeping the existing value otherwise);
_store_product_data overwrites stock_status, product_url and
last_updated with the observation's values but leaves
variation_details unchanged. -/
theorem c5_overwrite_amended (fr fts fpr : String → String → ℚ) (thr : ℚ)
    (st : St) (pid vid pvid : String) (d : ScrapedData) (obs : ScrapedProduct)
    (now : Time) (nid npid nprid : String) :
    (∀ ex, st.prices.find? (priceKey pid vid) = some ex →
      (update_or_create_price st pid vid d now nid).2.stock_status
          = d.stock_status.getD "in_stock"
        ∧ (update_or_create_price st pid vid d now nid).2.product_url
          = d.product_url.getD ex.product_url
        ∧ (update_or_create_price st pid vid d now nid).2.variation_details
          = d.variations.getD (.dict [])
        ∧ (update_or_create_price st pid vid d now nid).2.last_updated_at = now)
    ∧ (∀ ex, st.prices.find?
          (priceKey (find_matching_product fr fts fpr thr obs st npid).1.product.id pvid)
          = some ex →
        (store_product_data fr fts fpr thr obs pvid st now npid nprid).2.prices.find?
            (priceKey (find_matching_product fr fts fpr thr obs st npid).1.product.id pvid)
          = some (pipelineUpdatedPrice ex obs now)
        ∧ (pipelineUpdatedPrice ex obs now).stock_status = obs.stock_status
        ∧ (pipelineUpdatedPrice ex obs now).product_url = obs.product_url
        ∧ (pipelineUpdatedPrice ex obs now).last_updated_at = now
        ∧ (pipelineUpdatedPrice ex obs now).variation_details = ex.variation_details) := by
  constructor
  · intro ex h
    rw [update_or_create_price_existing st pid vid d now nid ex h]
    exact ⟨rfl, rfl, rfl, rfl⟩
  · intro ex h
    have hf := pipelineUpdatedPrice_fields ex obs now
    refine ⟨?_, hf.1, hf.2.1, hf.2.2.1, hf.2.2.2.1⟩
    rw [store_product_data_existing fr fts fpr thr obs pvid st now npid nprid ex h]
    exact find?_replaceFirstPrice _ pvid _
      (priceKey_pipelineUpdatedPrice obs now (priceKey_of_find? h)) st.prices ex h

/-- C5 witness: the amended statement at the concrete states stOne and
stVar. -/
theorem c5_overwrite_witness :
    (update_or_create_price stOne "np1" "v1" dThird 5 "w1").2.last_updated_at = 5
    ∧ ((store_product_data fzero fzero fzero 80 obsVar "v1" stVar 1 "np1" "npr2").2.prices.find?
        (priceKey "np1" "v1") = some (pipelineUpdatedPrice prVar obsVar 1)) := by
  have h5 := c5_overwrite_amended fzero fzero fzero 80 stOne "np1" "v1" "v1" dThird
    obsVar 5 "w1" "np1" "npr2"
  have h5b := c5_overwrite_amended fzero fzero fzero 80 stVar "np1" "v1" "v1" dThird
    obsVar 1 "w1" "np1" "npr2"
  exact ⟨(h5.1 prOne (by decide)).2.2.2, (h5b.2 prVar (by decide)).1⟩

/-! ## Claim C6: popularity increments -/

/-- find? by id after bumping the first row with that id. -/
lemma find?_bump_first_product (id : String) :
    ∀ l : List Product,
      (bump_first_product id l).find? (fun q => q.id == id)
        = (l.find? (fun q => q.id == id)).map
            (fun q => { q with popularity_score := q.popularity_score + 1 }) := by
  intro l
  induction l with
  | nil => rfl
  | cons p ps ih =>
    by_cases hp : (p.id == id) = true
    · have hstep : bump_first_product id (p :: ps)
          = { p with popularity_score := p.popularity_score + 1 } :: ps := by
        simp [bump_first_product, hp]
      have hbp : (({ p with popularity_score := p.popularity_score + 1 } : Product).id == id)
          = true := hp
      rw [hstep]
      simp only [List.find?, hbp, hp]
      rfl
    · have hp' : (p.id == id) = false := Bool.eq_false_iff.mpr hp
      have hstep : bump_first_product id (p :: ps) = p :: bump_first_product id ps := by
        simp [bump_first_product, hp]
      rw [hstep]
      simp only [List.find?, hp']
      exact ih

/-- Both store branches bump the resolved product's popularity. -/
lemma store_product_data_products (fr fts fpr : String → String → ℚ) (thr : ℚ)
    (obs : ScrapedProduct) (vid : String) (st : St) (now : Time)
    (npid nprid : String) :
    (store_product_data fr fts fpr thr obs vid st now npid nprid).2.products
      = bump_first_product (find_matching_product fr fts fpr thr obs st npid).1.product.id
          (find_matching_product fr fts fpr thr obs st npid).2.products := by
  cases h : st.prices.find?
      (priceKey (find_matching_product fr fts fpr thr obs st npid).1.product.id vid) with
  | some ex => rw [store_product_data_existing fr fts fpr thr obs vid st now npid nprid ex h]
  | none => rw [store_product_data_new fr fts fpr thr obs vid st now npid nprid h]

/-- Product row with popularity 5 for the popularity counterexample. -/
def prodP : Product :=
  { id := "prod1", name := "Gadget", brand := "Acme", category_id := none,
    image_url := none, popularity_score := 5 }

/-- Price row owned by prodP at vendor v1. -/
def prP : Price :=
  { id := "pr3", product_id := "prod1", vendor_id := "v1", price := 5,
    original_price := none, discount_percentage := none,
    stock_status := "in_stock", product_url := "u",
    variation_details := .dict [], last_updated_at := 0 }

/-- State holding prodP and its price row. -/
def stPop : St :=
  { products := [prodP], categories := [], prices := [prP], history := [] }

/-- Observation payload with price only. -/
def dPlain : ScrapedData := { price := 5 }

/-- C6 counterexample: a successful apply through
update_or_create_price (it updates the row: last_updated becomes 1)
leaves the owning Product's popularity_score at 5 instead of
incrementing it to 6. -/
theorem c6_popularity_counterexample :
    (update_or_create_price stPop "prod1" "v1" dPlain 1 "n1").1.products
      = stPop.products
    ∧ (update_or_create_price stPop "prod1" "v1" dPlain 1 "n1").2.last_updated_at = 1
    ∧ stPop.products.map Product.popularity_score = [5] := by
  refine ⟨?_, ?_, by decide⟩
  · rw [update_or_create_price_existing stPop "prod1" "v1" dPlain 1 "n1" prP (by decide)]
  · rw [update_or_create_price_existing stPop "prod1" "v1" dPlain 1 "n1" prP (by decide)]
    rfl

/-- C6 amended: the scraper-pipeline apply (_store_product_data)
increments the resolved product's popularity_score by exactly 1,
whether it updated an existing Price or inserted a new one, while the
price-service apply (update_or_create_price) leaves every Product row
unchanged. -/
theorem c6_popularity_amended (fr fts fpr : String → String → ℚ) (thr : ℚ)
    (st : St) (pid vid pvid : String) (d : ScrapedData) (obs : ScrapedProduct)
    (now : Time) (nid npid nprid : String) :
    ((store_product_data fr fts fpr thr obs pvid st now npid nprid).2.products
      = bump_first_product (find_matching_product fr fts fpr thr obs st npid).1.product.id
          (find_matching_product fr fts fpr thr obs st npid).2.products)
    ∧ (∀ p, (find_matching_product fr fts fpr thr obs st npid).2.products.find?
          (fun q => q.id == (find_matching_product fr fts fpr thr obs st npid).1.product.id)
          = some p →
        ((store_product_data fr fts fpr thr obs pvid st now npid nprid).2.products.find?
            (fun q => q.id == (find_matching_product fr fts fpr thr obs st npid).1.product.id)).map
          Product.popularity_score
        = some (p.popularity_score + 1))
    ∧ ((update_or_create_price st pid vid d now nid).1.products = st.products) := by
  refine ⟨store_product_data_products fr fts fpr thr obs pvid st now npid nprid, ?_, ?_⟩
  · intro p hp
    rw [store_product_data_products fr fts fpr thr obs pvid st now npid nprid,
      find?_bump_first_product, hp]
    rfl
  · cases h : st.prices.find? (priceKey pid vid) with
    | some ex => rw [update_or_create_price_existing st pid vid d now nid ex h]
    | none => rw [update_or_create_price_new st pid vid d now nid h]

/-- C6 witness: on the empty catalog the matcher creates a product with
popularity 1 and the store bumps it to 2; the service apply on stPop
leaves the product list unchanged. -/
theorem c6_popularity_witness :
    ((store_product_data fzero fzero fzero 80 obsPlain "v1" stEmpty 1 "npW" "nprW").2.products.find?
        (fun q => q.id == (find_matching_product fzero fzero fzero 80 obsPlain stEmpty "npW").1.product.id)).map
      Product.popularity_score
      = some ((create_new_product obsPlain stEmpty "npW").popularity_score + 1)
    ∧ (update_or_create_price stPop "prod1" "v1" dPlain 1 "n1").1.products = stPop.products := by
  have h := c6_popularity_amended fzero fzero fzero 80 stPop "prod1" "v1" "v1" dPlain
    obsPlain 1 "n1" "npW" "nprW"
  have h2 := c6_popularity_amended fzero fzero fzero 80 stEmpty "p" "v" "v1" dPlain
    obsPlain 1 "n1" "npW" "nprW"
  exact ⟨h2.2.1 (create_new_product obsPlain stEmpty "npW") (by decide), h.2.2⟩

/-! ## Claim C9: malformed observations -/

/-- Branch equation: the matcher against an empty catalog always
creates a new product. -/
lemma find_matching_product_nil (fr fts fpr : String → String → ℚ) (thr : ℚ)
    (obs : ScrapedProduct) (st : St) (npid : String) (hp : st.products = []) :
    find_matching_product fr fts fpr thr obs st npid
      = (.created (create_new_product obs st npid),
         { st with products := st.products ++ [create_new_product obs st npid] }) := by
  unfold find_matching_product
  rw [hp]
  rfl

/-- Malformed observation: empty name and non-positive price. -/
def obsBad : ScrapedProduct :=
  { name := "", price := 0, original_price := none, stock_status := "in_stock",
    product_url := "", image_url := none, variations := [] }

/-- C9 counterexample: the malformed observation (empty name, price 0)
is not rejected at the matcher boundary: a Product row is created (with
brand Unknown) and a Price row is stored for it. -/
theorem c9_malformed_counterexample :
    obsBad.name = "" ∧ obsBad.price ≤ 0
    ∧ (store_product_data fzero fzero fzero 80 obsBad "v1" stEmpty 0 "np9" "npr9").1
        = .created (create_new_product obsBad stEmpty "np9")
    ∧ (store_product_data fzero fzero fzero 80 obsBad "v1" stEmpty 0 "np9" "npr9").2.products.length
        = 1
    ∧ (store_product_data fzero fzero fzero 80 obsBad "v1" stEmpty 0 "np9" "npr9").2.prices.length
        = 1
    ∧ (create_new_product obsBad stEmpty "np9").brand = "Unknown" := by
  refine ⟨rfl, by decide, by decide, by decide, by decide, by decide⟩

/-- C9 amended: no validation happens at the matcher boundary: an
observation with an empty name or a non-positive price is processed
like any other — against an empty catalog the matcher creates a
product for it and the pipeline stores a Price row, with no error. -/
theorem c9_no_validation_amended (fr fts fpr : String → String → ℚ) (thr : ℚ)
    (obs : ScrapedProduct) (vid : String) (now : Time) (npid nprid : String)
    (st : St) (hp : st.products = []) (hpr : st.prices = [])
    (hmal : obs.name = "" ∨ obs.price ≤ 0) :
    (store_product_data fr fts fpr thr obs vid st now npid nprid).1
      = .created (create_new_product obs st npid)
    ∧ (store_product_data fr fts fpr thr obs vid st now npid nprid).2.products
      = [{ create_new_product obs st npid with popularity_score := 2 }]
    ∧ (store_product_data fr fts fpr thr obs vid st now npid nprid).2.prices
      = [pipelineNewPrice obs npid vid nprid now] := by
  have hm := find_matching_product_nil fr fts fpr thr obs st npid hp
  have hid : (find_matching_product fr fts fpr thr obs st npid).1.product.id = npid := by
    rw [hm]
    rfl
  have hfind : st.prices.find?
      (priceKey (find_matching_product fr fts fpr thr obs st npid).1.product.id vid)
      = none := by
    rw [hpr]
    rfl
  have hnew := store_product_data_new fr fts fpr thr obs vid st now npid nprid hfind
  refine ⟨?_, ?_, ?_⟩
  · rw [hnew, hm]
  · rw [hnew]
    show bump_first_product (find_matching_product fr fts fpr thr obs st npid).1.product.id
        (find_matching_product fr fts fpr thr obs st npid).2.products = _
    rw [hid, hm]
    show bump_first_product npid (st.products ++ [create_new_product obs st npid]) = _
    rw [hp]
    show bump_first_product npid [create_new_product obs st npid] = _
    simp [bump_first_product, create_new_product]
  · rw [hnew]
    show st.prices ++
        [pipelineNewPrice obs (find_matching_product fr fts fpr thr obs st npid).1.product.id
          vid nprid now] = _
    rw [hpr, hid]
    rfl

/-- C9 witness: the amended statement at the concrete malformed
observation obsBad. -/
theorem c9_no_validation_witness :
    (store_product_data fzero fzero fzero 80 obsBad "v2" stEmpty 3 "npA" "npB").2.prices
      = [pipelineNewPrice obsBad "npA" "v2" "npB" 3]
    ∧ (store_product_data fzero fzero fzero 80 obsBad "v2" stEmpty 3 "npA" "npB").1
      = .created (create_new_product obsBad stEmpty "npA") := by
  have h := c9_no_validation_amended fzero fzero fzero 80 obsBad "v2" 3 "npA" "npB"
    stEmpty rfl rfl (Or.inl rfl)
  exact ⟨h.2.2, h.1⟩

/-! ## Claim C3: matcher composite score and threshold -/

/-- Invariant of the candidate loop of find_matching_product: starting
from an accumulator that is either the initial (none, 0) or a retained
candidate with its composite score at or above the threshold, the loop
returns none exactly when every scanned candidate scores below the
threshold, and otherwise retains a candidate achieving the running
maximum score, which is at least the threshold. -/
lemma match_loop_invariant (fr fts fpr : String → String → ℚ) (thr : ℚ)
    (hthr : 0 < thr) (obs_name : String) :
    ∀ (l : List Product) (acc : Option Product × ℚ),
      (acc.1 = none → acc.2 = 0) →
      (∀ p, acc.1 = some p →
        acc.2 = composite_score fr fts fpr obs_name p.name ∧ thr ≤ acc.2) →
      (((l.foldl (match_step fr fts fpr thr obs_name) acc).1 = none →
          acc.1 = none
          ∧ ∀ p ∈ l, composite_score fr fts fpr obs_name p.name < thr)
        ∧ (∀ p, (l.foldl (match_step fr fts fpr thr obs_name) acc).1 = some p →
            (acc.1 = some p ∨ p ∈ l)
            ∧ (l.foldl (match_step fr fts fpr thr obs_name) acc).2
                = composite_score fr fts fpr obs_name p.name
            ∧ thr ≤ (l.foldl (match_step fr fts fpr thr obs_name) acc).2
            ∧ acc.2 ≤ (l.foldl (match_step fr fts fpr thr obs_name) acc).2
            ∧ ∀ q ∈ l, composite_score fr fts fpr obs_name q.name
                ≤ (l.foldl (match_step fr fts fpr thr obs_name) acc).2)) := by
  intro l
  induction l with
  | nil =>
    intro acc h1 h2
    simp only [List.foldl_nil]
    constructor
    · intro hr
      exact ⟨hr, fun p hp => absurd hp (List.not_mem_nil p)⟩
    · intro p hp
      exact ⟨Or.inl hp, (h2 p hp).1, (h2 p hp).2, le_refl _,
        fun q hq => absurd hq (List.not_mem_nil q)⟩
  | cons p l ih =>
    intro acc h1 h2
    simp only [List.foldl_cons]
    set s := composite_score fr fts fpr obs_name p.name with hs
    by_cases hsel : s > acc.2 ∧ s ≥ thr
    · have hstep : match_step fr fts fpr thr obs_name acc p = (some p, s) := by
        simp only [match_step, ← hs]
        rw [if_pos hsel]
      rw [hstep]
      have h1' : ((some p, s) : Option Product × ℚ).1 = none → ((some p, s) : Option Product × ℚ).2 = 0 := by
        intro hx; exact absurd hx (by simp)
      have h2' : ∀ q, ((some p, s) : Option Product × ℚ).1 = some q →
          ((some p, s) : Option Product × ℚ).2 = composite_score fr fts fpr obs_name q.name
          ∧ thr ≤ ((some p, s) : Option Product × ℚ).2 := by
        intro q hq
        have hpq : p = q := by simpa using hq
        subst hpq
        exact ⟨hs, hsel.2⟩
      have ihh := ih (some p, s) h1' h2'
      constructor
      · intro hr
        exact absurd (ihh.1 hr).1 (by simp)
      · intro p' hp'
        obtain ⟨hmem, heq, hthr', hacc, hall⟩ := ihh.2 p' hp'
        refine ⟨?_, heq, hthr', le_trans (le_of_lt hsel.1) hacc, ?_⟩
        · rcases hmem with hm | hm
          · have : p = p' := by simpa using hm
            exact Or.inr (this ▸ List.mem_cons_self p l)
          · exact Or.inr (List.mem_cons_of_mem p hm)
        · intro q hq
          rcases List.mem_cons.mp hq with rfl | hq'
          · exact le_trans (le_of_eq hs.symm) hacc
          · exact hall q hq'
    · have hstep : match_step fr fts fpr thr obs_name acc p = acc := by
        simp only [match_step, ← hs]
        rw [if_neg hsel]
      rw [hstep]
      have ihh := ih acc h1 h2
      constructor
      · intro hr
        obtain ⟨hnone, hall⟩ := ihh.1 hr
        refine ⟨hnone, ?_⟩
        intro q hq
        rcases List.mem_cons.mp hq with rfl | hq'
        · rcases not_and_or.mp hsel with hle | hlt
          · have hle' : s ≤ acc.2 := not_lt.mp hle
            rw [h1 hnone] at hle'
            exact lt_of_le_of_lt hle' hthr
          · exact not_le.mp hlt
        · exact hall q hq'
      · intro p' hp'
        obtain ⟨hmem, heq, hthr', hacc, hall⟩ := ihh.2 p' hp'
        refine ⟨?_, heq, hthr', hacc, ?_⟩
        · rcases hmem with hm | hm
          · exact Or.inl hm
          · exact Or.inr (List.mem_cons_of_mem p hm)
        · intro q hq
          rcases List.mem_cons.mp hq with rfl | hq'
          · rcases not_and_or.mp hsel with hle | hlt
            · exact le_trans (not_lt.mp hle) hacc
            · exact le_trans (le_of_lt (not_le.mp hlt)) hthr'
          · exact hall q hq'

/-- Branch equation: the matcher when the loop retained a candidate. -/
lemma find_matching_product_matched (fr fts fpr : String → String → ℚ) (thr : ℚ)
    (obs : ScrapedProduct) (st : St) (npid : String) (bm : Product)
    (h : (st.products.foldl (match_step fr fts fpr thr obs.name) (none, 0)).1 = some bm) :
    find_matching_product fr fts fpr thr obs st npid = (.matched bm, st) := by
  unfold find_matching_product
  rw [h]

/-- Branch equation: the matcher when the loop retained nothing. -/
lemma find_matching_product_none (fr fts fpr : String → String → ℚ) (thr : ℚ)
    (obs : ScrapedProduct) (st : St) (npid : String)
    (h : (st.products.foldl (match_step fr fts fpr thr obs.name) (none, 0)).1 = none) :
    find_matching_product fr fts fpr thr obs st npid
      = (.created (create_new_product obs st npid),
         { st with products := st.products ++ [create_new_product obs st npid] }) := by
  unfold find_matching_product
  rw [h]

/-- The composite score dominates each individual measure: the three
fuzzy measures always, the keyword-overlap score whenever both keyword
lists are nonempty. -/
lemma composite_ge_parts (fr fts fpr : String → String → ℚ)
    (obs_name prod_name : String) :
    fr (pyLower obs_name) (pyLower prod_name)
        ≤ composite_score fr fts fpr obs_name prod_name
    ∧ fts (pyLower obs_name) (pyLower prod_name)
        ≤ composite_score fr fts fpr obs_name prod_name
    ∧ fpr (pyLower obs_name) (pyLower prod_name)
        ≤ composite_score fr fts fpr obs_name prod_name
    ∧ (extract_product_keywords obs_name ≠ [] →
       extract_product_keywords prod_name ≠ [] →
       keyword_overlap_score (extract_product_keywords obs_name)
           (extract_product_keywords prod_name)
         ≤ composite_score fr fts fpr obs_name prod_name) := by
  unfold composite_score
  dsimp only
  split_ifs with h
  · refine ⟨?_, ?_, ?_, fun _ _ => le_max_right _ _⟩ <;>
      simp [le_max_iff, le_refl]
  · refine ⟨?_, ?_, ?_, fun h1 h2 => absurd ⟨h1, h2⟩ h⟩ <;>
      simp [le_max_iff, le_refl]

/-- C3: the matcher scores each catalog product with the maximum (not
the average) of the three fuzzy measures and the keyword-overlap score
(the latter when both keyword lists are nonempty) and returns an
existing product achieving the highest composite score if and only if
that score reaches the threshold; otherwise it creates a new product.
In particular a single measure at or above the threshold prevents
creating a duplicate, and when every candidate scores below the
threshold a new product is always created. -/
theorem c3_matcher_threshold (fr fts fpr : String → String → ℚ) (thr : ℚ)
    (hthr : 0 < thr) (obs : ScrapedProduct) (st : St) (npid : String) :
    ((∃ p ∈ st.products, thr ≤ composite_score fr fts fpr obs.name p.name) →
      ∃ p ∈ st.products,
        (find_matching_product fr fts fpr thr obs st npid).1 = .matched p
        ∧ thr ≤ composite_score fr fts fpr obs.name p.name
        ∧ ∀ q ∈ st.products,
            composite_score fr fts fpr obs.name q.name
              ≤ composite_score fr fts fpr obs.name p.name)
    ∧ ((∀ p ∈ st.products, composite_score fr fts fpr obs.name p.name < thr) →
        (find_matching_product fr fts fpr thr obs st npid).1
          = .created (create_new_product obs st npid))
    ∧ (∀ p ∈ st.products,
        (thr ≤ fr (pyLower obs.name) (pyLower p.name)
          ∨ thr ≤ fts (pyLower obs.name) (pyLower p.name)
          ∨ thr ≤ fpr (pyLower obs.name) (pyLower p.name)
          ∨ (extract_product_keywords obs.name ≠ []
             ∧ extract_product_keywords p.name ≠ []
             ∧ thr ≤ keyword_overlap_score (extract_product_keywords obs.name)
                 (extract_product_keywords p.name))) →
        ∃ p', (find_matching_product fr fts fpr thr obs st npid).1 = .matched p') := by
  have hinv := match_loop_invariant fr fts fpr thr hthr obs.name st.products (none, 0)
    (fun _ => rfl) (fun p hp => absurd hp (by simp))
  have hmain : (∃ p ∈ st.products, thr ≤ composite_score fr fts fpr obs.name p.name) →
      ∃ p ∈ st.products,
        (find_matching_product fr fts fpr thr obs st npid).1 = .matched p
        ∧ thr ≤ composite_score fr fts fpr obs.name p.name
        ∧ ∀ q ∈ st.products,
            composite_score fr fts fpr obs.name q.name
              ≤ composite_score fr fts fpr obs.name p.name := by
    intro ⟨p0, hp0mem, hp0⟩
    cases hr : (st.products.foldl (match_step fr fts fpr thr obs.name) (none, 0)).1 with
    | none =>
      exact absurd hp0 (not_le.mpr ((hinv.1 hr).2 p0 hp0mem))
    | some bm =>
      obtain ⟨hmem, heq, hthr', _, hall⟩ := hinv.2 bm hr
      have hbmem : bm ∈ st.products := by
        rcases hmem with hm | hm
        · exact absurd hm (by simp)
        · exact hm
      refine ⟨bm, hbmem, ?_, ?_, ?_⟩
      · rw [find_matching_product_matched fr fts fpr thr obs st npid bm hr]
      · rw [← heq]; exact hthr'
      · intro q hq; rw [← heq]; exact hall q hq
  refine ⟨hmain, ?_, ?_⟩
  · intro hall
    cases hr : (st.products.foldl (match_step fr fts fpr thr obs.name) (none, 0)).1 with
    | none =>
      rw [find_matching_product_none fr fts fpr thr obs st npid hr]
    | some bm =>
      obtain ⟨hmem, heq, hthr', _, _⟩ := hinv.2 bm hr
      have hbmem : bm ∈ st.products := by
        rcases hmem with hm | hm
        · exact absurd hm (by simp)
        · exact hm
      exact absurd (hall bm hbmem) (not_lt.mpr (le_of_le_of_eq hthr' heq))
  · intro p hmem hor
    have hparts := composite_ge_parts fr fts fpr obs.name p.name
    have hcomp : thr ≤ composite_score fr fts fpr obs.name p.name := by
      rcases hor with h | h | h | ⟨h1, h2, h3⟩
      · exact le_trans h hparts.1
      · exact le_trans h hparts.2.1
      · exact le_trans h hparts.2.2.1
      · exact le_trans h3 (hparts.2.2.2 h1 h2)
    obtain ⟨p', _, heq, _, _⟩ := hmain ⟨p, hmem, hcomp⟩
    exact ⟨p', heq⟩

/-- Score function returning 100 on every pair. -/
def fhundred : String → String → ℚ := fun _ _ => 100

/-- Catalog product for the matcher witness. -/
def prodW : Product :=
  { id := "pw", name := "bbb", brand := "b", category_id := none,
    image_url := none, popularity_score := 1 }

/-- One-product state for the matcher witness. -/
def stW : St := { products := [prodW], categories := [], prices := [], history := [] }

/-- Observation for the matcher witness. -/
def obsW : ScrapedProduct :=
  { name := "aaa", price := 1, original_price := none, stock_status := "in_stock",
    product_url := "u", image_url := none, variations := [] }

/-- C3 witness: with a measure scoring 100 against the one-product
catalog stW and threshold 80, the matcher returns a matched product. -/
theorem c3_matcher_witness :
    ∃ p ∈ stW.products,
      (find_matching_product fhundred fzero fzero 80 obsW stW "nW").1 = .matched p
      ∧ (80 : ℚ) ≤ composite_score fhundred fzero fzero obsW.name p.name
      ∧ ∀ q ∈ stW.products,
          composite_score fhundred fzero fzero obsW.name q.name
            ≤ composite_score fhundred fzero fzero obsW.name p.name := by
  exact (c3_matcher_threshold fhundred fzero fzero 80 (by norm_num) obsW stW "nW").1
    ⟨prodW, by simp [stW], by decide⟩

/-! ## Claim C7: trend direction -/

/-- Price row of the trend scenario: one product, one row per vendor. -/
def trow (pid vid : String) (pr : ℚ) (ts : Time) : Price :=
  { id := pid, product_id := "prod", vendor_id := vid, price := pr,
    original_price := none, discount_percentage := none,
    stock_status := "in_stock", product_url := "u",
    variation_details := .dict [], last_updated_at := ts }

/-- Eleven current Price rows for one product across eleven vendors,
listed oldest first: ten observations at price 100 (timestamps -11..-2
seconds) and the most recent observation at price 240 (timestamp -1).
Calendar-wise the price rose. -/
def trendPrices : List Price :=
  [trow "p11" "v11" 100 (-11), trow "p10" "v10" 100 (-10),
   trow "p09" "v09" 100 (-9), trow "p08" "v08" 100 (-8),
   trow "p07" "v07" 100 (-7), trow "p06" "v06" 100 (-6),
   trow "p05" "v05" 100 (-5), trow "p04" "v04" 100 (-4),
   trow "p03" "v03" 100 (-3), trow "p02" "v02" 100 (-2),
   trow "p01" "v01" 240 (-1)]

/-- History entry of the trend scenario. -/
def thRow (vid : String) (pr : ℚ) (ts : Time) : HistEntry :=
  { vendor_id := vid, price := pr, original_price := none,
    timestamp := ts, stock_status := "in_stock" }

/-- The history list get_price_history produces for trendPrices:
newest first. -/
def trendHist : List HistEntry :=
  [thRow "v01" 240 (-1), thRow "v02" 100 (-2), thRow "v03" 100 (-3),
   thRow "v04" 100 (-4), thRow "v05" 100 (-5), thRow "v06" 100 (-6),
   thRow "v07" 100 (-7), thRow "v08" 100 (-8), thRow "v09" 100 (-9),
   thRow "v10" 100 (-10), thRow "v11" 100 (-11)]

/-- C7 code bug: get_price_history returns the history newest first,
so price_history[:10] — used by calculate_price_trends as the older
window — holds the newest prices (mean 114) and price_history[-10:] —
used as the recent window — holds the oldest (mean 100).  On a history
whose calendar-recent mean exceeds the calendar-older mean by 14%,
far beyond the 2% deadband, the computed overall direction is
therefore decreasing instead of increasing. -/
theorem c7_trend_direction_code_bug :
    get_price_history trendPrices "prod" 0 30 = trendHist
    ∧ List.Pairwise (fun a b => b.timestamp < a.timestamp) trendHist
    ∧ mean ((trendHist.take 10).map (fun h => h.price)) = 114
    ∧ mean ((trendHist.drop (trendHist.length - 10)).map (fun h => h.price)) = 100
    ∧ overall_direction (calculate_price_trends trendHist) = some "decreasing"
    ∧ (2 : ℚ) < ((114 - 100) / 100) * 100 := by
  refine ⟨?_, ?_, ?_, ?_, ?_, by norm_num⟩
  · norm_num [get_price_history, trendPrices, trow, trendHist, thRow,
      sortDescBy, insertDescBy, List.filter]
  · norm_num [trendHist, thRow, List.pairwise_cons]
  · norm_num [trendHist, thRow, mean]
  · norm_num [trendHist, thRow, mean]
  · have hlen : ¬ (trendHist.length < 2) := by norm_num [trendHist]
    have hold10 : (trendHist.take 10).map (fun h => h.price)
        = [240, 100, 100, 100, 100, 100, 100, 100, 100, 100] := by
      norm_num [trendHist, thRow]
    have hrec10 : (trendHist.drop (trendHist.length - 10)).map (fun h => h.price)
        = [100, 100, 100, 100, 100, 100, 100, 100, 100, 100] := by
      norm_num [trendHist, thRow]
    have hmold : mean [240, 100, 100, 100, 100, 100, 100, 100, 100, 100] = (114 : ℚ) := by
      norm_num [mean]
    have hmrec : mean [(100 : ℚ), 100, 100, 100, 100, 100, 100, 100, 100, 100] = 100 := by
      norm_num [mean]
    unfold calculate_price_trends
    rw [if_neg hlen]
    dsimp only
    simp only [hrec10, hold10, hmold, hmrec]
    rw [if_pos (show ([(100 : ℚ), 100, 100, 100, 100, 100, 100, 100, 100, 100] : List ℚ) ≠ []
        ∧ ([(240 : ℚ), 100, 100, 100, 100, 100, 100, 100, 100, 100] : List ℚ) ≠ [] from
        by simp)]
    rw [if_neg (show ¬ ((((100 : ℚ) - 114) / 114) * 100 > 2) from by norm_num)]
    rw [if_pos (show (((100 : ℚ) - 114) / 114) * 100 < -2 from by norm_num)]
    rfl

/-! ## Claim C10: normalize_price -/

/-- Whitespace characters are not digits. -/
lemma isDigit_false_of_isWs {c : Char} (h : isWs c = true) : c.isDigit = false := by
  unfold isWs at h
  simp only [Bool.or_eq_true, decide_eq_true_eq] at h
  rcases h with ((((rfl | rfl) | rfl) | rfl) | rfl) | rfl <;> rfl

/-- Digits survive dropping a whitespace prefix. -/
lemma mem_dropWhile_isWs_of_digit {c : Char} (hc : c.isDigit = true) :
    ∀ {l : List Char}, c ∈ l → c ∈ l.dropWhile isWs := by
  intro l
  induction l with
  | nil => intro h; exact absurd h (List.not_mem_nil c)
  | cons a t ih =>
    intro h
    rw [List.dropWhile_cons]
    by_cases ha : isWs a = true
    · simp only [ha, if_true]
      rcases List.mem_cons.mp h with rfl | ht
      · rw [isDigit_false_of_isWs ha] at hc
        exact absurd hc (by simp)
      · exact ih ht
    · simp only [ha, Bool.false_eq_true, if_false]
      exact h

/-- Digits survive str.strip. -/
lemma mem_stripWs_of_digit {c : Char} (hc : c.isDigit = true) {l : List Char}
    (h : c ∈ l) : c ∈ stripWs l := by
  unfold stripWs
  rw [List.mem_reverse]
  exact mem_dropWhile_isWs_of_digit hc
    (by rw [List.mem_reverse]; exact mem_dropWhile_isWs_of_digit hc h)

/-- Digits survive the character filter. -/
lemma mem_cleaned_of_digit {c : Char} (hc : c.isDigit = true) {l : List Char}
    (h : c ∈ l) : c ∈ cleanedChars l := by
  unfold cleanedChars
  exact List.mem_filter.mpr ⟨h, by simp [hc]⟩

/-- Every character of the stripped text comes from the original. -/
lemma mem_of_mem_stripWs {c : Char} {l : List Char} (h : c ∈ stripWs l) : c ∈ l := by
  unfold stripWs at h
  rw [List.mem_reverse] at h
  have h2 := (List.dropWhile_sublist (l := (l.dropWhile isWs).reverse) isWs).subset h
  rw [List.mem_reverse] at h2
  exact (List.dropWhile_sublist isWs).subset h2

/-- Every character of the cleaned text comes from the original. -/
lemma mem_of_mem_cleaned {c : Char} {l : List Char}
    (h : c ∈ cleanedChars (stripWs l)) : c ∈ l :=
  mem_of_mem_stripWs (List.mem_filter.mp h).1

/-- With no digit in the input the digit run is empty. -/
lemma takeWhile_isDigit_nil {l : List Char} (h : ∀ c ∈ l, c.isDigit = false) :
    l.takeWhile Char.isDigit = [] := by
  cases l with
  | nil => rfl
  | cons a t =>
    rw [List.takeWhile_cons]
    simp [h a (List.mem_cons_self a t)]

/-- With no digit no position matches pattern 1. -/
lemma pat1At_eq_none {l : List Char} (h : ∀ c ∈ l, c.isDigit = false) :
    pat1At l = none := by
  simp only [pat1At, takeWhile_isDigit_nil h]
  rfl

/-- With no digit no position matches pattern 2. -/
lemma pat2At_eq_none {l : List Char} (h : ∀ c ∈ l, c.isDigit = false) :
    pat2At l = none := by
  simp only [pat2At, takeWhile_isDigit_nil h]
  rfl

/-- With no digit no position matches pattern 3. -/
lemma pat3At_eq_none {l : List Char} (h : ∀ c ∈ l, c.isDigit = false) :
    pat3At l = none := by
  simp only [pat3At, takeWhile_isDigit_nil h]
  rfl

/-- With no digit no position matches pattern 4. -/
lemma pat4At_eq_none {l : List Char} (h : ∀ c ∈ l, c.isDigit = false) :
    pat4At l = none := by
  simp only [pat4At, takeWhile_isDigit_nil h]
  rfl

/-- A search with a matcher that fails everywhere returns nothing. -/
lemma searchAt_eq_none {patAt : List Char → Option (List Char)}
    (hpat : ∀ l : List Char, (∀ c ∈ l, c.isDigit = false) → patAt l = none) :
    ∀ {l : List Char}, (∀ c ∈ l, c.isDigit = false) → searchAt patAt l = none := by
  intro l
  induction l with
  | nil => intro h; simpa [searchAt] using hpat [] h
  | cons c t ih =>
    intro h
    simp only [searchAt]
    rw [hpat (c :: t) h]
    simpa [Option.orElse] using ih (fun x hx => h x (List.mem_cons_of_mem c hx))

/-- A failed search makes the whole pattern attempt fail. -/
lemma tryPattern_eq_none {patAt : List Char → Option (List Char)} {l : List Char}
    (h : searchAt patAt l = none) : tryPattern patAt l = none := by
  unfold tryPattern
  rw [h]
  rfl

/-- With a digit in the input, the plain-integer pattern search finds a
nonempty all-digit match. -/
lemma searchAt_pat4_some :
    ∀ {l : List Char}, (∃ c ∈ l, c.isDigit = true) →
      ∃ m, searchAt pat4At l = some m ∧ m ≠ [] ∧ ∀ c ∈ m, c.isDigit = true := by
  intro l
  induction l with
  | nil =>
    intro h
    obtain ⟨c, hc, _⟩ := h
    exact absurd hc (List.not_mem_nil c)
  | cons c t ih =>
    intro h
    by_cases hc : c.isDigit = true
    · have hrun : ((c :: t).takeWhile Char.isDigit) = c :: t.takeWhile Char.isDigit := by
        rw [List.takeWhile_cons]
        simp [hc]
      have hp4 : pat4At (c :: t) = some (c :: t.takeWhile Char.isDigit) := by
        simp only [pat4At, hrun]
        rfl
      refine ⟨c :: t.takeWhile Char.isDigit, ?_, by simp, ?_⟩
      · simp only [searchAt]
        rw [hp4]
        rfl
      · intro x hx
        rcases List.mem_cons.mp hx with rfl | hxt
        · exact hc
        · exact List.mem_takeWhile_imp hxt
    · have h' : ∃ x ∈ t, x.isDigit = true := by
        rcases h with ⟨x, hx, hdx⟩
        rcases List.mem_cons.mp hx with rfl | hxt
        · exact absurd hdx hc
        · exact ⟨x, hxt, hdx⟩
      obtain ⟨m, hm, hne, hall⟩ := ih h'
      have hp4 : pat4At (c :: t) = none := by
        have hrun : ((c :: t).takeWhile Char.isDigit) = [] := by
          rw [List.takeWhile_cons]
          simp [hc]
        simp only [pat4At, hrun]
        rfl
      refine ⟨m, ?_, hne, hall⟩
      simp only [searchAt]
      rw [hp4]
      simpa [Option.orElse] using hm

/-- Parsing a nonempty all-digit string yields its numeric value. -/
lemma parsePriceStr_all_digits {l : List Char} (hne : l ≠ [])
    (hall : ∀ c ∈ l, c.isDigit = true) :
    parsePriceStr l = some ((digitsToNat l : ℕ) : ℚ) := by
  have ht : l.takeWhile Char.isDigit = l := List.takeWhile_eq_self_iff.mpr hall
  have hie : l.isEmpty = false := by
    cases l with
    | nil => exact absurd rfl hne
    | cons a t => rfl
  simp only [parsePriceStr, ht, hie, Bool.false_eq_true, if_false, List.drop_length]

/-- Parsed prices are never negative. -/
lemma parsePriceStr_nonneg : ∀ (l : List Char) (q : ℚ),
    parsePriceStr l = some q → 0 ≤ q := by
  intro l q h
  simp only [parsePriceStr] at h
  split at h
  · exact absurd h (by simp)
  · split at h
    · rw [Option.some.injEq] at h
      rw [← h]
      positivity
    · split at h
      · rw [Option.some.injEq] at h
        rw [← h]
        positivity
      · exact absurd h (by simp)
    · exact absurd h (by simp)

/-- A successful pattern attempt yields a nonnegative price. -/
lemma tryPattern_nonneg (patAt : List Char → Option (List Char)) {l : List Char}
    {q : ℚ} (h : tryPattern patAt l = some q) : 0 ≤ q := by
  unfold tryPattern at h
  cases hsm : searchAt patAt l with
  | none => rw [hsm] at h; exact absurd h (by simp)
  | some m =>
    rw [hsm] at h
    exact parsePriceStr_nonneg _ q (by simpa using h)

/-- An or-else of price options whose right side succeeds succeeds. -/
lemma orElse_exists {o : Option ℚ} {f : Unit → Option ℚ}
    (h : ∃ q, f () = some q) : ∃ q, o.orElse f = some q := by
  cases o with
  | some v => exact ⟨v, rfl⟩
  | none => simpa [Option.orElse] using h

/-- A successful or-else came from one of its sides. -/
lemma orElse_elim {o : Option ℚ} {f : Unit → Option ℚ} {q : ℚ}
    (h : o.orElse f = some q) : o = some q ∨ f () = some q := by
  cases o with
  | some v => exact Or.inl (by simpa [Option.orElse] using h)
  | none => exact Or.inr (by simpa [Option.orElse] using h)

/-- With a digit in the cleaned text, the last pattern attempt (plain
integer) succeeds. -/
lemma tryPattern_pat4_some {l : List Char} (h : ∃ c ∈ l, c.isDigit = true) :
    ∃ q, tryPattern pat4At l = some q := by
  obtain ⟨m, hm, hne, hall⟩ := searchAt_pat4_some h
  have hmf : m.filter (fun c => c ≠ ',') = m := by
    refine List.filter_eq_self.mpr ?_
    intro a ha
    have had := hall a ha
    simp only [decide_eq_true_eq]
    intro hac
    rw [hac] at had
    exact absurd had (by decide)
  refine ⟨((digitsToNat m : ℕ) : ℚ), ?_⟩
  unfold tryPattern
  rw [hm]
  show parsePriceStr (m.filter (fun c => c ≠ ',')) = some ((digitsToNat m : ℕ) : ℚ)
  rw [hmf]
  exact parsePriceStr_all_digits hne hall

/-- C10: normalize_price is total, returns None exactly on the empty
string or digit-free input, and otherwise a nonnegative value parsed
from the first matching price pattern of the cleaned text. -/
theorem c10_normalize_price_total (s : String) :
    (normalize_price s = none ↔ (s = "" ∨ ∀ c ∈ s.toList, c.isDigit = false))
    ∧ (∀ q, normalize_price s = some q → 0 ≤ q) := by
  constructor
  · constructor
    · intro hnone
      by_contra hcon
      push_neg at hcon
      obtain ⟨hne, c, hc, hdig⟩ := hcon
      have hdig' : c.isDigit = true := by simpa using hdig
      have hcl : c ∈ cleanedChars (stripWs s.toList) :=
        mem_cleaned_of_digit hdig' (mem_stripWs_of_digit hdig' hc)
      have h4 := tryPattern_pat4_some ⟨c, hcl, hdig'⟩
      have hsome : ∃ q, normalize_price s = some q := by
        unfold normalize_price
        rw [if_neg hne]
        dsimp only
        exact orElse_exists h4
      obtain ⟨q, hq⟩ := hsome
      rw [hq] at hnone
      exact absurd hnone (by simp)
    · intro hor
      rcases hor with rfl | hall
      · rfl
      · by_cases hse : s = ""
        · subst hse; rfl
        · unfold normalize_price
          rw [if_neg hse]
          dsimp only
          have hcl : ∀ x ∈ cleanedChars (stripWs s.toList), x.isDigit = false :=
            fun x hx => hall x (mem_of_mem_cleaned hx)
          rw [tryPattern_eq_none (searchAt_eq_none (fun _ h => pat1At_eq_none h) hcl),
            tryPattern_eq_none (searchAt_eq_none (fun _ h => pat2At_eq_none h) hcl),
            tryPattern_eq_none (searchAt_eq_none (fun _ h => pat3At_eq_none h) hcl),
            tryPattern_eq_none (searchAt_eq_none (fun _ h => pat4At_eq_none h) hcl)]
          rfl
  · intro q hq
    unfold normalize_price at hq
    by_cases hse : s = ""
    · rw [if_pos hse] at hq
      exact absurd hq (by simp)
    · rw [if_neg hse] at hq
      dsimp only at hq
      rcases orElse_elim hq with h3 | h3
      · rcases orElse_elim h3 with h2 | h2
        · rcases orElse_elim h2 with h1 | h1
          · exact tryPattern_nonneg pat1At h1
          · exact tryPattern_nonneg pat2At h1
        · exact tryPattern_nonneg pat3At h2
      · exact tryPattern_nonneg pat4At h3

/-- C10 witness: the theorem applied to the concrete input with a
digit, giving nonnegativity of the parsed price, and to the empty
input. -/
theorem c10_normalize_price_witness :
    (0 : ℚ) ≤ ((7 : ℕ) : ℚ) ∧ normalize_price "" = none := by
  constructor
  · exact (c10_normalize_price_total "$7").2 ((7 : ℕ) : ℚ) rfl
  · exact (c10_normalize_price_total "").1.mpr (Or.inl rfl)

end PricePilot
